import Mathlib

/-!
# Rinzler grid monitor: the status collector

A shallow embedding of `k8s/monitoring/collector/main.go`: the status store
(`Dashboard.updateService`), the seven probe functions and one pass of the
collector loop, followed by theorems about them.

Modelling conventions.

* The program is sequential in the part modelled here (the collector goroutine is the
  only writer of the store), so the mutex is not represented.
* Everything outside the process is an `Env`: an oracle answering each outbound HTTP
  request as a function of the history so far, a clock, and the URL parser used by
  `http.NewRequest`.  Nothing is assumed about the oracle.
* A `Run` pairs the dashboard with a trace of the observable events (outbound requests
  and store writes), in the order in which they happen.
* A response body is represented by its JSON syntax tree (`Json`), `none` standing for
  bytes that `encoding/json` rejects as a JSON text.  Decoding follows `json.Unmarshal`:
  it fails for the whole body when the text does not fit the target type or when some
  number in it is outside the range of `float64`.
-/

set_option exponentiation.threshold 3000

namespace Rinzler

/-! ## Go values -/

/-- Dynamic Go value held in an `interface{}`: what `json.Unmarshal` produces for a JSON
text (`null`, `bool`, `float64`, `string`, `[]interface{}`, `map[string]interface{}`), plus
Go `int`, which the probes store in `details`.  A `float64` is given by the rational it
denotes.  A map is an association list read with `mapGet` (first match). -/
inductive Value where
  | null
  | bool (b : Bool)
  | number (q : ℚ)
  | str (s : String)
  | arr (xs : List Value)
  | obj (kvs : List (String × Value))
  | int (n : Int)

/-- Go map with string keys, as an association list. -/
abbrev GoMap (α : Type) := List (String × α)

/-- Go `m[k] = v`: replace the entry of `k`, or add one. -/
def mapSet {α : Type} : GoMap α → String → α → GoMap α
  | [], k, v => [(k, v)]
  | (k', v') :: rest, k, v =>
    if k' = k then (k, v) :: rest else (k', v') :: mapSet rest k v

/-- Go `m[k]`: the entry of `k`, if any (`none` is the nil interface). -/
def mapGet {α : Type} : GoMap α → String → Option α
  | [], _ => none
  | (k', v') :: rest, k => if k' = k then some v' else mapGet rest k

/-- Go type assertion `x.([]interface{})`. -/
def asList : Option Value → Option (List Value)
  | some (Value.arr xs) => some xs
  | _ => none

/-- Go type assertion `x.(map[string]interface{})`. -/
def asMap : Option Value → Option (GoMap Value)
  | some (Value.obj kvs) => some kvs
  | _ => none

/-- Go type assertion `x.(string)`. -/
def asString : Option Value → Option String
  | some (Value.str s) => some s
  | _ => none

/-- Go type assertion `x.(float64)`. -/
def asFloat : Option Value → Option ℚ
  | some (Value.number q) => some q
  | _ => none

/-- Go conversion `int(f)` of a `float64` on amd64: truncation toward zero when the
result fits `int` (64 bits), and the smallest `int` otherwise (the language leaves the
out-of-range result to the implementation). -/
def goIntOfFloat (q : ℚ) : Int :=
  let t : Int := if 0 ≤ q then Rat.floor q else Rat.ceil q
  if -(2 : Int) ^ 63 ≤ t ∧ t < (2 : Int) ^ 63 then t else -(2 : Int) ^ 63

/-! ## JSON texts and `json.Unmarshal` -/

/-- JSON number literal, by its exact value `mantissa * 10 ^ exponent`. -/
structure NumLit where
  mantissa : Int
  exponent : Int

/-- Syntax tree of a JSON text.  An object keeps its members in the order of the text,
repeated keys included. -/
inductive Json where
  | null
  | bool (b : Bool)
  | number (n : NumLit)
  | str (s : String)
  | arr (xs : List Json)
  | obj (kvs : List (String × Json))

/-- Whether `strconv.ParseFloat(s, 64)` accepts the literal: its value rounds to a finite
`float64`, that is, its absolute value is below `2^1024 - 2^970`, half an ulp above the
largest `float64`.  Beyond that ParseFloat reports a range error. -/
def fitsFloat64 (n : NumLit) : Bool :=
  if 0 ≤ n.exponent then
    decide (n.mantissa.natAbs * 10 ^ n.exponent.toNat < 2 ^ 1024 - 2 ^ 970)
  else
    decide (n.mantissa.natAbs < (2 ^ 1024 - 2 ^ 970) * 10 ^ (-n.exponent).toNat)

/-- The integer nearest to `a / b`, ties to the even one (`b` positive). -/
def roundHalfEven (a b : Nat) : Nat :=
  let q := a / b
  let r := a % b
  if 2 * r < b then q else if b < 2 * r then q + 1 else if q % 2 = 0 then q else q + 1

/-- The exponent `p` with `2^p ≤ a / b < 2^(p+1)` (`a` and `b` positive). -/
def floorLog2 (a b : Nat) : Int :=
  let e0 : Int := (Nat.log2 a : Int) - (Nat.log2 b : Int)
  if 0 ≤ e0 then (if a < b * 2 ^ e0.toNat then e0 - 1 else e0)
  else (if a * 2 ^ (-e0).toNat < b then e0 - 1 else e0)

/-- The `float64` nearest to `a / b` (round to nearest, ties to even, subnormals
included), as a pair `(r, k)` standing for `r * 2^k`. -/
def nearestFloat64 (a b : Nat) : Nat × Int :=
  if a = 0 then (0, 0)
  else
    let p := max (floorLog2 a b) (-1022)
    let k := p - 52
    let r :=
      if 0 ≤ k then roundHalfEven a (b * 2 ^ k.toNat)
      else roundHalfEven (a * 2 ^ (-k).toNat) b
    (r, k)

/-- The `float64` that `strconv.ParseFloat` returns for a literal in range, as the
rational it denotes (the sign of a zero is not represented). -/
def float64Value (n : NumLit) : ℚ :=
  let a :=
    if 0 ≤ n.exponent then n.mantissa.natAbs * 10 ^ n.exponent.toNat else n.mantissa.natAbs
  let b := if 0 ≤ n.exponent then 1 else 10 ^ (-n.exponent).toNat
  let f := nearestFloat64 a b
  (if n.mantissa < 0 then -1 else 1) * (f.1 : ℚ) * (2 : ℚ) ^ f.2

mutual

/-- Result of `json.Unmarshal` into an `interface{}` position: the Go value of the text,
or `none` when Unmarshal returns an error because a number is outside `float64`. -/
def decode : Json → Option Value
  | Json.null => some Value.null
  | Json.bool b => some (Value.bool b)
  | Json.number n => if fitsFloat64 n then some (Value.number (float64Value n)) else none
  | Json.str s => some (Value.str s)
  | Json.arr xs => (decodeList xs).map Value.arr
  | Json.obj kvs => (decodeFields [] kvs).map Value.obj

/-- Decoding of the elements of a JSON array, in order. -/
def decodeList : List Json → Option (List Value)
  | [] => some []
  | x :: xs =>
    match decode x, decodeList xs with
    | some v, some vs => some (v :: vs)
    | _, _ => none

/-- Decoding of the members of a JSON object into the Go map `acc`, in the order of the
text: a repeated key overwrites the earlier entry. -/
def decodeFields (acc : GoMap Value) : List (String × Json) → Option (GoMap Value)
  | [] => some acc
  | (k, x) :: rest =>
    match decode x with
    | some v => decodeFields (mapSet acc k v) rest
    | none => none

end

/-- Whether a JSON value may be stored in a `map[string]interface{}` variable: an
object, or `null` (the nil map). -/
def isObjectOrNull : Json → Bool
  | Json.obj _ => true
  | Json.null => true
  | _ => false

/-- Result of `json.Unmarshal(body, &m)` for `var m map[string]interface{}`: `none` when
Unmarshal returns an error (bytes that are not JSON, a JSON text that is neither an
object nor `null`, or a number outside `float64` anywhere in the text); `null` leaves
the nil map. -/
def unmarshalMap : Option Json → Option (GoMap Value)
  | some (Json.obj kvs) => decodeFields [] kvs
  | some Json.null => some []
  | _ => none

/-- Result of `json.Unmarshal(body, &xs)` for `var xs []map[string]interface{}`: `none`
when Unmarshal returns an error (bytes that are not JSON, a JSON text that is neither an
array nor `null`, an array with an element that is neither an object nor `null`, or a
number outside `float64` anywhere in the text). -/
def unmarshalMapSlice : Option Json → Option (List Value)
  | some (Json.arr xs) => if xs.all isObjectOrNull then decodeList xs else none
  | some Json.null => some []
  | _ => none

/-! ## Data model -/

/-- Go `map[string]interface{}` value of the `Details` field; `none` is the nil map. -/
abbrev Details := Option (GoMap Value)

/-- Source: `type ServiceStatus struct` (field `Type` is named `ServiceType` here). -/
structure ServiceStatus where
  Name : String
  ServiceType : String
  Healthy : Bool
  LastChecked : Nat
  Message : String
  Details : Details

/-- Source: `type Dashboard struct`, without the mutex. -/
structure Dashboard where
  Services : GoMap ServiceStatus

/-- Source: `type Config struct`. -/
structure Config where
  PlexURL : String
  PlexToken : String
  RadarrURL : String
  RadarrAPIKey : String
  SonarrURL : String
  SonarrAPIKey : String
  ReadarrURL : String
  ReadarrAPIKey : String
  LidarrURL : String
  LidarrAPIKey : String
  BazarrURL : String
  BazarrAPIKey : String
  JackettURL : String
  JackettAPIKey : String
  TransmissionURL : String
  TransmissionUser : String
  TransmissionPass : String
  ArgoURL : String
  ArgoToken : String
  TautulliURL : String
  TautulliAPIKey : String

/-! ## The outside world -/

/-- Outbound HTTP GET request: its URL and the request headers the program adds. -/
structure Request where
  url : String
  headers : List (String × String)

/-- The parts of `*http.Response` the probes read: the status code, `Header.Get` and the
body (its JSON syntax tree, `none` for bytes that are not a JSON text). -/
structure Response where
  StatusCode : Int
  Header : String → String
  Body : Option Json

/-- Outcome of `http.Get` / `client.Do`: a transport error (with its text) or a response. -/
inductive HttpResult where
  | error (err : String)
  | ok (resp : Response)

/-- Observable event of a run: an outbound request, or a record written by
`updateService`. -/
inductive Event where
  | request (r : Request)
  | update (s : ServiceStatus)

/-- The environment: how the network answers a request after a given history, what the
clock shows after a given history, and whether `http.NewRequest` accepts a URL. -/
structure Env where
  http : List Event → Request → HttpResult
  now : List Event → Nat
  urlParses : String → Bool

/-- State of a run: the dashboard and the events so far, oldest first. -/
structure Run where
  d : Dashboard
  trace : List Event

/-- Source: `main`, lines 427-429: the dashboard starts with an empty map. -/
def mainInit : Run :=
  { d := { Services := [] }, trace := [] }

/-! ## The status store -/

/-- Source: `Dashboard.updateService`. -/
def updateService (env : Env) (st : Run) (name serviceType : String) (healthy : Bool)
    (message : String) (details : Details) : Run :=
  let s : ServiceStatus :=
    { Name := name
      ServiceType := serviceType
      Healthy := healthy
      LastChecked := env.now st.trace
      Message := message
      Details := details }
  { d := { Services := mapSet st.d.Services name s }
    trace := st.trace ++ [Event.update s] }

/-- One outbound request: the environment answers, the request joins the trace. -/
def doRequest (env : Env) (st : Run) (req : Request) : HttpResult × Run :=
  (env.http st.trace req, { st with trace := st.trace ++ [Event.request req] })

/-- Go `http.Get(url)`. -/
def httpGet (env : Env) (st : Run) (url : String) : HttpResult × Run :=
  doRequest env st { url := url, headers := [] }

/-! ## Probes -/

/-- Source: `Dashboard.checkPlexHealth`. -/
def checkPlexHealth (env : Env) (config : Config) (st : Run) : Run :=
  if config.PlexToken = "" then
    updateService env st "plex" "media" false "No API token configured" none
  else
    let url := config.PlexURL ++ "/?X-Plex-Token=" ++ config.PlexToken
    match httpGet env st url with
    | (HttpResult.error err, st1) =>
      updateService env st1 "plex" "media" false ("Connection error: " ++ err) none
    | (HttpResult.ok resp, st1) =>
      if resp.StatusCode = 200 then
        updateService env st1 "plex" "media" true "Server is running"
          (some (mapSet [] "version" (Value.str (resp.Header "X-Plex-Version"))))
      else
        updateService env st1 "plex" "media" false ("HTTP " ++ toString resp.StatusCode) none

/-- Source: `Dashboard.checkArrHealth`, lines 139-150: the verdict, the message and the
details after the health body has been decoded. -/
def arrHealthVerdict (body : Option Json) (details : GoMap Value) :
    Bool × String × GoMap Value :=
  match unmarshalMapSlice body with
  | some healthItems =>
    if healthItems.length > 0 then
      (false, toString healthItems.length ++ " health issues detected",
        mapSet details "health_issues" (Value.arr healthItems))
    else (true, "All systems operational", details)
  | none => (true, "All systems operational", details)

/-- Source: `Dashboard.checkArrHealth`, lines 155-164: the details after the queue call. -/
def arrQueueDetails (res : HttpResult) (details : GoMap Value) : GoMap Value :=
  match res with
  | HttpResult.ok resp =>
    match unmarshalMap resp.Body with
    | some queueData =>
      match asList (mapGet queueData "records") with
      | some records => mapSet details "queue_size" (Value.int records.length)
      | none => details
    | none => details
  | HttpResult.error _ => details

/-- Source: `Dashboard.checkArrHealth`, lines 169-178: the details after the system
status call. -/
def arrStatusDetails (res : HttpResult) (details : GoMap Value) : GoMap Value :=
  match res with
  | HttpResult.ok resp =>
    match unmarshalMap resp.Body with
    | some statusData =>
      match asString (mapGet statusData "version") with
      | some version => mapSet details "version" (Value.str version)
      | none => details
    | none => details
  | HttpResult.error _ => details

/-- Source: `Dashboard.checkArrHealth`. -/
def checkArrHealth (env : Env) (name url apiKey serviceType : String) (st : Run) : Run :=
  if apiKey = "" then
    updateService env st name serviceType false "No API key configured" none
  else
    let details : GoMap Value := []
    let healthURL := url ++ "/api/v3/health?apiKey=" ++ apiKey
    match httpGet env st healthURL with
    | (HttpResult.error err, st1) =>
      updateService env st1 name serviceType false ("Connection error: " ++ err) none
    | (HttpResult.ok resp, st1) =>
      let verdict := arrHealthVerdict resp.Body details
      let queueURL := url ++ "/api/v3/queue?apiKey=" ++ apiKey
      let q := httpGet env st1 queueURL
      let details2 := arrQueueDetails q.1 verdict.2.2
      let statusURL := url ++ "/api/v3/system/status?apiKey=" ++ apiKey
      let s := httpGet env q.2 statusURL
      let details3 := arrStatusDetails s.1 details2
      updateService env s.2 name serviceType verdict.1 verdict.2.1 (some details3)

/-- Source: `Dashboard.checkTransmissionHealth`. -/
def checkTransmissionHealth (env : Env) (config : Config) (st : Run) : Run :=
  match httpGet env st (config.TransmissionURL ++ "/transmission/web/") with
  | (HttpResult.error err, st1) =>
    updateService env st1 "transmission" "download" false ("Connection error: " ++ err) none
  | (HttpResult.ok resp, st1) =>
    if resp.StatusCode = 200 ∨ resp.StatusCode = 301 ∨ resp.StatusCode = 302 then
      updateService env st1 "transmission" "download" true "Web UI accessible" none
    else
      updateService env st1 "transmission" "download" false
        ("HTTP " ++ toString resp.StatusCode) none

/-- Counters of the loop in `checkArgoHealth` (Go `int`s that only count list items). -/
structure ArgoCounts where
  synced : Nat
  outOfSync : Nat
  degraded : Nat

/-- Source: `Dashboard.checkArgoHealth`, lines 243-252: the sync status of one
application. -/
def argoSyncStep (status : GoMap Value) (c : ArgoCounts) : ArgoCounts :=
  match asMap (mapGet status "sync") with
  | some sync =>
    match asString (mapGet sync "status") with
    | some syncStatus =>
      if syncStatus = "Synced" then { c with synced := c.synced + 1 }
      else if syncStatus = "OutOfSync" then { c with outOfSync := c.outOfSync + 1 }
      else c
    | none => c
  | none => c

/-- Source: `Dashboard.checkArgoHealth`, lines 253-259: the health status of one
application. -/
def argoHealthStep (status : GoMap Value) (c : ArgoCounts) : ArgoCounts :=
  match asMap (mapGet status "health") with
  | some health =>
    match asString (mapGet health "status") with
    | some healthStatus =>
      if healthStatus = "Degraded" then { c with degraded := c.degraded + 1 } else c
    | none => c
  | none => c

/-- Source: `Dashboard.checkArgoHealth`, lines 241-261: the loop body for one item. -/
def argoCountItem (c : ArgoCounts) (item : Value) : ArgoCounts :=
  match asMap (some item) with
  | some app =>
    match asMap (mapGet app "status") with
    | some status => argoHealthStep status (argoSyncStep status c)
    | none => c
  | none => c

/-- Source: `Dashboard.checkArgoHealth`, lines 230-269: the details built from the body
of the applications response. -/
def argoDetails (body : Option Json) : GoMap Value :=
  let details : GoMap Value := []
  match unmarshalMap body with
  | some appList =>
    match asList (mapGet appList "items") with
    | some items =>
      let c := items.foldl argoCountItem { synced := 0, outOfSync := 0, degraded := 0 }
      let d1 := mapSet details "total_apps" (Value.int items.length)
      let d2 := mapSet d1 "synced" (Value.int c.synced)
      let d3 := mapSet d2 "out_of_sync" (Value.int c.outOfSync)
      mapSet d3 "degraded" (Value.int c.degraded)
    | none => details
  | none => details

/-- Source: `Dashboard.checkArgoHealth`.  The error of `http.NewRequest` is discarded
(`req, _ :=`); when the URL does not parse `req` is nil and `req.Header.Add` panics, which
is the result `none`. -/
def checkArgoHealth (env : Env) (config : Config) (st : Run) : Option Run :=
  if config.ArgoToken = "" then
    match httpGet env st (config.ArgoURL ++ "/api/v1/session") with
    | (HttpResult.error err, st1) =>
      some (updateService env st1 "argocd" "infrastructure" false
        ("Connection error: " ++ err) none)
    | (HttpResult.ok resp, st1) =>
      if resp.StatusCode = 200 then
        some (updateService env st1 "argocd" "infrastructure" true
          "API accessible (no auth)" none)
      else
        some (updateService env st1 "argocd" "infrastructure" false
          "No token configured" none)
  else
    if env.urlParses (config.ArgoURL ++ "/api/v1/applications") then
      let req : Request :=
        { url := config.ArgoURL ++ "/api/v1/applications"
          headers := [("Authorization", "Bearer " ++ config.ArgoToken)] }
      match doRequest env st req with
      | (HttpResult.error err, st1) =>
        some (updateService env st1 "argocd" "infrastructure" false
          ("Connection error: " ++ err) none)
      | (HttpResult.ok resp, st1) =>
        if resp.StatusCode = 200 then
          some (updateService env st1 "argocd" "infrastructure" true "Connected to ArgoCD"
            (some (argoDetails resp.Body)))
        else
          some (updateService env st1 "argocd" "infrastructure" false
            ("HTTP " ++ toString resp.StatusCode) none)
    else none

/-- Source: `Dashboard.checkBazarrHealth`, lines 298-309: the details after the status
call. -/
def bazarrStatusDetails (res : HttpResult) (details : GoMap Value) : GoMap Value :=
  match res with
  | HttpResult.ok resp2 =>
    match unmarshalMap resp2.Body with
    | some statusData =>
      match asMap (mapGet statusData "data") with
      | some data =>
        match asString (mapGet data "bazarr_version") with
        | some version => mapSet details "version" (Value.str version)
        | none => details
      | none => details
    | none => details
  | HttpResult.error _ => details

/-- Source: `Dashboard.checkBazarrHealth`. -/
def checkBazarrHealth (env : Env) (config : Config) (st : Run) : Run :=
  if config.BazarrAPIKey = "" then
    updateService env st "bazarr" "arr-stack" false "No API key configured" none
  else
    let healthURL := config.BazarrURL ++ "/api/system/health?apikey=" ++ config.BazarrAPIKey
    match httpGet env st healthURL with
    | (HttpResult.error err, st1) =>
      updateService env st1 "bazarr" "arr-stack" false ("Connection error: " ++ err) none
    | (HttpResult.ok resp, st1) =>
      let details : GoMap Value := []
      if resp.StatusCode = 200 then
        let statusURL :=
          config.BazarrURL ++ "/api/system/status?apikey=" ++ config.BazarrAPIKey
        let s := httpGet env st1 statusURL
        let details2 := bazarrStatusDetails s.1 details
        updateService env s.2 "bazarr" "arr-stack" true "Service is running" (some details2)
      else
        updateService env st1 "bazarr" "arr-stack" false
          ("HTTP " ++ toString resp.StatusCode) none

/-- Source: `Dashboard.checkJackettHealth`, lines 319-322: the URL probed. -/
def jackettHealthURL (config : Config) : String :=
  if config.JackettAPIKey ≠ "" then
    config.JackettURL ++ "/api/v2.0/indexers/all/results?apikey=" ++ config.JackettAPIKey
  else config.JackettURL ++ "/UI/Dashboard"

/-- Source: `Dashboard.checkJackettHealth`. -/
def checkJackettHealth (env : Env) (config : Config) (st : Run) : Run :=
  match httpGet env st (jackettHealthURL config) with
  | (HttpResult.error err, st1) =>
    updateService env st1 "jackett" "download" false ("Connection error: " ++ err) none
  | (HttpResult.ok resp, st1) =>
    if resp.StatusCode = 200 then
      updateService env st1 "jackett" "download" true "Service is running" none
    else
      updateService env st1 "jackett" "download" false
        ("HTTP " ++ toString resp.StatusCode) none

/-- Source: `Dashboard.checkTautulliHealth`, lines 368-380: the details built from the
body of the activity response. -/
def tautulliDetails (body : Option Json) : GoMap Value :=
  let details : GoMap Value := []
  match unmarshalMap body with
  | some data =>
    match asMap (mapGet data "response") with
    | some response =>
      match asString (mapGet response "result") with
      | some result =>
        if result = "success" then
          match asMap (mapGet response "data") with
          | some responseData =>
            match asFloat (mapGet responseData "stream_count") with
            | some streamCount =>
              mapSet details "active_streams" (Value.int (goIntOfFloat streamCount))
            | none => details
          | none => details
        else details
      | none => details
    | none => details
  | none => details

/-- Source: `Dashboard.checkTautulliHealth`. -/
def checkTautulliHealth (env : Env) (config : Config) (st : Run) : Run :=
  if config.TautulliAPIKey = "" then
    match httpGet env st config.TautulliURL with
    | (HttpResult.error err, st1) =>
      updateService env st1 "tautulli" "media" false ("Connection error: " ++ err) none
    | (HttpResult.ok resp, st1) =>
      if resp.StatusCode = 200 then
        updateService env st1 "tautulli" "media" true "Web UI accessible" none
      else
        updateService env st1 "tautulli" "media" false
          ("HTTP " ++ toString resp.StatusCode) none
  else
    let url :=
      config.TautulliURL ++ "/api/v2?apikey=" ++ config.TautulliAPIKey ++ "&cmd=get_activity"
    match httpGet env st url with
    | (HttpResult.error err, st1) =>
      updateService env st1 "tautulli" "media" false ("Connection error: " ++ err) none
    | (HttpResult.ok resp, st1) =>
      if resp.StatusCode = 200 then
        updateService env st1 "tautulli" "media" true "Connected to Tautulli"
          (some (tautulliDetails resp.Body))
      else
        updateService env st1 "tautulli" "media" false
          ("HTTP " ++ toString resp.StatusCode) none

/-! ## The collector loop -/

/-- Source: `Dashboard.collectMetrics`, lines 393-404: one pass of the loop body (the
log line and the sleep are not represented).  `none` when `checkArgoHealth` panics. -/
def collectMetricsPass (env : Env) (config : Config) (st : Run) : Option Run :=
  let st1 := checkPlexHealth env config st
  let st2 := checkTautulliHealth env config st1
  let st3 := checkArrHealth env "radarr" config.RadarrURL config.RadarrAPIKey "arr-stack" st2
  let st4 := checkArrHealth env "sonarr" config.SonarrURL config.SonarrAPIKey "arr-stack" st3
  let st5 :=
    if config.ReadarrAPIKey ≠ "" then
      checkArrHealth env "readarr" config.ReadarrURL config.ReadarrAPIKey "arr-stack" st4
    else st4
  let st6 := checkArrHealth env "lidarr" config.LidarrURL config.LidarrAPIKey "arr-stack" st5
  let st7 := checkBazarrHealth env config st6
  let st8 := checkJackettHealth env config st7
  let st9 := checkTransmissionHealth env config st8
  checkArgoHealth env config st9

/-- Source: `Dashboard.collectMetrics`: the first `n` passes of the endless loop. -/
def collectMetrics (env : Env) (config : Config) : Nat → Run → Option Run
  | 0, st => some st
  | n + 1, st =>
    match collectMetricsPass env config st with
    | some st1 => collectMetrics env config n st1
    | none => none

/-! ## Vocabulary of the statements -/

/-- The run `st'` is `st` followed by exactly the outbound requests `reqs`, in this order,
and then one call of `updateService` that stored the record `r` under `r.Name`. -/
def Extends (st st' : Run) (reqs : List Request) (r : ServiceStatus) : Prop :=
  st'.d.Services = mapSet st.d.Services r.Name r ∧
  st'.trace = st.trace ++ reqs.map Event.request ++ [Event.update r]

/-- The probe run from `st` to `st'` issued exactly the outbound requests `reqs`, in this
order, and then wrote exactly one record, with the given name, type, verdict, message
and details (its `LastChecked` is whatever the clock showed). -/
def Wrote (st st' : Run) (reqs : List Request) (name serviceType : String) (healthy : Bool)
    (message : String) (details : Details) : Prop :=
  ∃ t : Nat, Extends st st' reqs
    { Name := name, ServiceType := serviceType, Healthy := healthy, LastChecked := t,
      Message := message, Details := details }

/-- Go `http.Get(url)` as a request. -/
def getRequest (url : String) : Request :=
  { url := url, headers := [] }

/-- Arguments of one `updateService` call. -/
structure StatusWrite where
  name : String
  serviceType : String
  healthy : Bool
  message : String
  details : Details

/-- One `updateService` call with the arguments `w`. -/
def applyWrite (env : Env) (st : Run) (w : StatusWrite) : Run :=
  updateService env st w.name w.serviceType w.healthy w.message w.details

/-- A sequence of `updateService` calls, first to last. -/
def applyWrites (env : Env) (st : Run) (ws : List StatusWrite) : Run :=
  ws.foldl (applyWrite env) st

/-- The record `r` carries exactly the five fields passed in the write `w`. -/
def SameFields (r : ServiceStatus) (w : StatusWrite) : Prop :=
  r.Name = w.name ∧ r.ServiceType = w.serviceType ∧ r.Healthy = w.healthy ∧
    r.Message = w.message ∧ r.Details = w.details

/-- Keys of a details map (none for the nil map). -/
def detailsKeys : Details → List String
  | none => []
  | some m => m.map Prod.fst

/-- Entry of a details map (none for the nil map or an absent key). -/
def detailsGet : Details → String → Option Value
  | none, _ => none
  | some m, k => mapGet m k

/-- States reachable from the dashboard built in `main` by `updateService` calls and
probe invocations, under any environments and configurations. -/
inductive Reachable : Run → Prop where
  | init : Reachable mainInit
  | update (env : Env) (st : Run) (name serviceType : String) (healthy : Bool)
      (message : String) (details : Details) :
      Reachable st → Reachable (updateService env st name serviceType healthy message details)
  | plex (env : Env) (config : Config) (st : Run) :
      Reachable st → Reachable (checkPlexHealth env config st)
  | tautulli (env : Env) (config : Config) (st : Run) :
      Reachable st → Reachable (checkTautulliHealth env config st)
  | arr (env : Env) (name url apiKey serviceType : String) (st : Run) :
      Reachable st → Reachable (checkArrHealth env name url apiKey serviceType st)
  | bazarr (env : Env) (config : Config) (st : Run) :
      Reachable st → Reachable (checkBazarrHealth env config st)
  | jackett (env : Env) (config : Config) (st : Run) :
      Reachable st → Reachable (checkJackettHealth env config st)
  | transmission (env : Env) (config : Config) (st : Run) :
      Reachable st → Reachable (checkTransmissionHealth env config st)
  | argo (env : Env) (config : Config) (st st' : Run) :
      Reachable st → checkArgoHealth env config st = some st' → Reachable st'

/-- Invariant of the store: every entry sits under its own name, and no key occurs
twice. -/
def StoreInv (m : GoMap ServiceStatus) : Prop :=
  (∀ k r, (k, r) ∈ m → r.Name = k) ∧ (m.map Prod.fst).Nodup

/-! ## Example environments and configurations -/

/-- An environment in which every request fails at the transport level. -/
def envDown : Env :=
  { http := fun _ _ => HttpResult.error "connection refused"
    now := fun t => t.length
    urlParses := fun _ => true }

/-- An environment answering every request with the given status code and body. -/
def envAnswer (code : Int) (body : Option Json) : Env :=
  { http := fun _ _ => HttpResult.ok { StatusCode := code, Header := fun _ => "", Body := body }
    now := fun t => t.length
    urlParses := fun _ => true }

/-- The configuration `loadConfig` builds when no environment variable is set. -/
def configDefault : Config :=
  { PlexURL := "http://plex.media:32400"
    PlexToken := ""
    RadarrURL := "http://radarr.arr-stack:7878"
    RadarrAPIKey := ""
    SonarrURL := "http://sonarr.arr-stack:8989"
    SonarrAPIKey := ""
    ReadarrURL := "http://readarr.arr-stack:8787"
    ReadarrAPIKey := ""
    LidarrURL := "http://lidarr.arr-stack:8686"
    LidarrAPIKey := ""
    BazarrURL := "http://bazarr.arr-stack:6767"
    BazarrAPIKey := ""
    JackettURL := "http://jackett.download:9117"
    JackettAPIKey := ""
    TransmissionURL := "http://gluetun-transmission.download:9091"
    TransmissionUser := ""
    TransmissionPass := ""
    ArgoURL := "http://argocd-server.argocd:8080"
    ArgoToken := ""
    TautulliURL := "http://tautulli.media:8181"
    TautulliAPIKey := "" }

/-- The default configuration with every credential set to `k`. -/
def configWithKeys (k : String) : Config :=
  { configDefault with
    PlexToken := k, RadarrAPIKey := k, SonarrAPIKey := k, ReadarrAPIKey := k,
    LidarrAPIKey := k, BazarrAPIKey := k, JackettAPIKey := k, ArgoToken := k,
    TautulliAPIKey := k }

/-- The write of a healthy radarr record with a version. -/
def writeRadarrOld : StatusWrite :=
  { name := "radarr", serviceType := "arr-stack", healthy := true,
    message := "All systems operational",
    details := some [("queue_size", Value.int 2), ("version", Value.str "4.5.0")] }

/-- The write of an unhealthy radarr record without details. -/
def writeRadarrNew : StatusWrite :=
  { name := "radarr", serviceType := "arr-stack", healthy := false,
    message := "Connection error: timeout", details := none }

/-- The write of a plex record. -/
def writePlex : StatusWrite :=
  { name := "plex", serviceType := "media", healthy := false,
    message := "No API token configured", details := none }

/-! ## Vocabulary for the arr and Bazarr probes -/

/-- The three requests of a full `checkArrHealth` run: health, queue, system status. -/
def arrRequests (url apiKey : String) : List Request :=
  [getRequest (url ++ "/api/v3/health?apiKey=" ++ apiKey),
    getRequest (url ++ "/api/v3/queue?apiKey=" ++ apiKey),
    getRequest (url ++ "/api/v3/system/status?apiKey=" ++ apiKey)]

/-- Answer to the queue call of `checkArrHealth` run from `st`: the second request, made
after the health request. -/
def arrQueueResult (env : Env) (url apiKey : String) (st : Run) : HttpResult :=
  env.http (st.trace ++ [Event.request (getRequest (url ++ "/api/v3/health?apiKey=" ++ apiKey))])
    (getRequest (url ++ "/api/v3/queue?apiKey=" ++ apiKey))

/-- Answer to the system status call of `checkArrHealth` run from `st`: the third
request, made after the health and queue requests. -/
def arrStatusResult (env : Env) (url apiKey : String) (st : Run) : HttpResult :=
  env.http
    (st.trace ++ [Event.request (getRequest (url ++ "/api/v3/health?apiKey=" ++ apiKey)),
      Event.request (getRequest (url ++ "/api/v3/queue?apiKey=" ++ apiKey))])
    (getRequest (url ++ "/api/v3/system/status?apiKey=" ++ apiKey))

/-- The result is a response whose body `json.Unmarshal` decodes without error to a map
whose `records` entry is an array of `k` elements. -/
def QueueWithRecords (res : HttpResult) (k : Nat) : Prop :=
  ∃ resp m recs, res = HttpResult.ok resp ∧ unmarshalMap resp.Body = some m ∧
    mapGet m "records" = some (Value.arr recs) ∧ recs.length = k

/-- The result is a response whose body `json.Unmarshal` decodes without error to a map
whose `version` entry is the string `v`. -/
def StatusWithVersion (res : HttpResult) (v : String) : Prop :=
  ∃ resp m, res = HttpResult.ok resp ∧ unmarshalMap resp.Body = some m ∧
    mapGet m "version" = some (Value.str v)

/-- An upstream answering 200 with the health body `[]`, the queue body
`{"records": [{}, {}]}` and the status body `{"version": "4.5.0"}`, told apart by the
number of requests seen so far. -/
def envArrScenario : Env :=
  { http := fun t _ =>
      HttpResult.ok
        { StatusCode := 200
          Header := fun _ => ""
          Body :=
            match t.length with
            | 0 => some (Json.arr [])
            | 1 => some (Json.obj [("records", Json.arr [Json.obj [], Json.obj []])])
            | _ => some (Json.obj [("version", Json.str "4.5.0")]) }
    now := fun t => t.length
    urlParses := fun _ => true }

/-! ## Vocabulary for the ArgoCD probe -/

/-- The value found by following the object fields `path` from `v`, if every step but the
last lands on a JSON object having the next field. -/
def fieldPath : Value → List String → Option Value
  | v, [] => some v
  | Value.obj kvs, k :: ks =>
    match mapGet kvs k with
    | some v' => fieldPath v' ks
    | none => none
  | _, _ :: _ => none

/-- Whether the value at `path` in `item` is the string `s`. -/
def hasString (path : List String) (s : String) (item : Value) : Bool :=
  match fieldPath item path with
  | some (Value.str t) => decide (t = s)
  | _ => false

/-- The applications request of `checkArgoHealth` with a token. -/
def argoRequest (config : Config) : Request :=
  { url := config.ArgoURL ++ "/api/v1/applications"
    headers := [("Authorization", "Bearer " ++ config.ArgoToken)] }

/-- One application of an ArgoCD payload with the given sync and health status. -/
def argoApp (sync health : String) : Json :=
  Json.obj [("status", Json.obj
    [("sync", Json.obj [("status", Json.str sync)]),
      ("health", Json.obj [("status", Json.str health)])])]

/-- The same application as `json.Unmarshal` decodes it. -/
def argoAppValue (sync health : String) : Value :=
  Value.obj [("status", Value.obj
    [("sync", Value.obj [("status", Value.str sync)]),
      ("health", Value.obj [("status", Value.str health)])])]

/-- The applications payload of the specification's scenario: sync statuses Synced,
Synced, OutOfSync, and one Degraded health. -/
def argoScenarioItems : List Json :=
  [argoApp "Synced" "Healthy", argoApp "Synced" "Degraded", argoApp "OutOfSync" "Healthy"]

/-- The scenario's applications as `json.Unmarshal` decodes them. -/
def argoScenarioValues : List Value :=
  [argoAppValue "Synced" "Healthy", argoAppValue "Synced" "Degraded",
    argoAppValue "OutOfSync" "Healthy"]

/-- An upstream answering every request with 200 and the scenario's payload. -/
def envArgoScenario : Env :=
  envAnswer 200 (some (Json.obj [("items", Json.arr argoScenarioItems)]))

/-- The JSON number `1e400`, which is outside `float64`. -/
def hugeNumber : Json :=
  Json.number { mantissa := 1, exponent := 400 }

/-- The arr scenario with one more member in the queue body:
`{"records": [{}, {}], "total": 1e400}`. -/
def envArrHugeNumber : Env :=
  { http := fun t _ =>
      HttpResult.ok
        { StatusCode := 200
          Header := fun _ => ""
          Body :=
            match t.length with
            | 0 => some (Json.arr [])
            | 1 => some (Json.obj [("records", Json.arr [Json.obj [], Json.obj []]),
                ("total", hugeNumber)])
            | _ => some (Json.obj [("version", Json.str "4.5.0")]) }
    now := fun t => t.length
    urlParses := fun _ => true }

/-- An upstream answering every request with 200 and the ArgoCD scenario's payload with
one more member: `{"items": [...], "metadata": 1e400}`. -/
def envArgoHugeNumber : Env :=
  envAnswer 200
    (some (Json.obj [("items", Json.arr argoScenarioItems), ("metadata", hugeNumber)]))

/-- The two requests of a full `checkBazarrHealth` run: health, then status. -/
def bazarrRequests (config : Config) : List Request :=
  [getRequest (config.BazarrURL ++ "/api/system/health?apikey=" ++ config.BazarrAPIKey),
    getRequest (config.BazarrURL ++ "/api/system/status?apikey=" ++ config.BazarrAPIKey)]

/-- Answer to the status call of `checkBazarrHealth` run from `st`: the second request,
made after the health request. -/
def bazarrStatusResult (env : Env) (config : Config) (st : Run) : HttpResult :=
  env.http
    (st.trace ++ [Event.request
      (getRequest (config.BazarrURL ++ "/api/system/health?apikey=" ++ config.BazarrAPIKey))])
    (getRequest (config.BazarrURL ++ "/api/system/status?apikey=" ++ config.BazarrAPIKey))

/-- The result is a response whose body `json.Unmarshal` decodes without error to a map
whose `data` entry is a map holding the string `v` under `bazarr_version`. -/
def BazarrStatusWithVersion (res : HttpResult) (v : String) : Prop :=
  ∃ resp m data, res = HttpResult.ok resp ∧ unmarshalMap resp.Body = some m ∧
    mapGet m "data" = some (Value.obj data) ∧
    mapGet data "bazarr_version" = some (Value.str v)

/-- An upstream answering the first request of a run with 200 and the body `[]` and
failing every later request at the transport level. -/
def envSecondaryDown : Env :=
  { http := fun t _ =>
      match t.length with
      | 0 => HttpResult.ok
          { StatusCode := 200, Header := fun _ => "", Body := some (Json.arr []) }
      | _ => HttpResult.error "timeout"
    now := fun t => t.length
    urlParses := fun _ => true }

/-! ## Vocabulary for the collector loop -/

/-- Names of the records written by the `updateService` calls of a trace, in order. -/
def updateNames : List Event → List String
  | [] => []
  | Event.update s :: rest => s.Name :: updateNames rest
  | Event.request _ :: rest => updateNames rest

/-- The services probed by one pass of the loop body, in order: readarr is probed only
with a non-empty `ReadarrAPIKey` (the guard at lines 397-399). -/
def passNames (config : Config) : List String :=
  ["plex", "tautulli", "radarr", "sonarr"] ++
    (if config.ReadarrAPIKey ≠ "" then ["readarr"] else []) ++
    ["lidarr", "bazarr", "jackett", "transmission", "argocd"]

/-- The ten monitored services in the order of the loop body. -/
def allNames : List String :=
  ["plex", "tautulli", "radarr", "sonarr", "readarr", "lidarr", "bazarr", "jackett",
    "transmission", "argocd"]

/-- A configuration with an ArgoCD token and an ArgoCD URL that `net/url` does not parse
(the bracket of the IPv6 host is not closed). -/
def configBadArgoURL : Config :=
  { configDefault with ArgoURL := "http://[::1", ArgoToken := "k" }

/-- An environment in which every request fails and `http.NewRequest` rejects exactly the
applications URL built from `configBadArgoURL`. -/
def envBadArgoURL : Env :=
  { envDown with urlParses := fun u => decide (u ≠ "http://[::1/api/v1/applications") }

/-- Keys of a Go map after `m[n] = v`. -/
def insertKey (ks : List String) (n : String) : List String :=
  if n ∈ ks then ks else ks ++ [n]

/-- Summary of a stretch of a run from `st` to `st'`: the events added contain exactly
the writes named `names`, in order; the store invariant is kept; the keys of the store
are those of `st` with `names` inserted. -/
def Ran (st st' : Run) (names : List String) : Prop :=
  (∃ evs, st'.trace = st.trace ++ evs ∧ updateNames evs = names) ∧
  (StoreInv st.d.Services → StoreInv st'.d.Services) ∧
  st'.d.Services.map Prod.fst = names.foldl insertKey (st.d.Services.map Prod.fst)

/-- The entries of the store under the keys outside `names` are the same in `s` and
`s'`. -/
def Keeps (s s' : Run) (names : List String) : Prop :=
  ∀ k, k ∉ names → mapGet s'.d.Services k = mapGet s.d.Services k

/-- One probe invocation and what becomes of its outcome: the probe run from `before` to
`after` issued some requests and then wrote exactly one record, with the name `name` and
the type tag `serviceType`, and that record is the entry under `name` in `final`. -/
def Outcome (before after final : Run) (name serviceType : String) : Prop :=
  ∃ reqs healthy message details t,
    Extends before after reqs
      { Name := name, ServiceType := serviceType, Healthy := healthy, LastChecked := t,
        Message := message, Details := details } ∧
    mapGet final.d.Services name = some
      { Name := name, ServiceType := serviceType, Healthy := healthy, LastChecked := t,
        Message := message, Details := details }

/-! ## Lemmas on Go maps -/

theorem mapGet_mapSet_self {α : Type} (m : GoMap α) (k : String) (v : α) :
    mapGet (mapSet m k v) k = some v := by
  induction m with
  | nil => simp [mapSet, mapGet]
  | cons e rest ih =>
    obtain ⟨k', v'⟩ := e
    by_cases h : k' = k
    · simp [mapSet, mapGet, h]
    · simp [mapSet, mapGet, h, ih]

theorem mapGet_mapSet_ne {α : Type} (m : GoMap α) (k k' : String) (v : α) (h : k' ≠ k) :
    mapGet (mapSet m k v) k' = mapGet m k' := by
  induction m with
  | nil => simp [mapSet, mapGet, Ne.symm h]
  | cons e rest ih =>
    obtain ⟨k1, v1⟩ := e
    by_cases h1 : k1 = k
    · subst h1
      simp [mapSet, mapGet, Ne.symm h]
    · by_cases h2 : k1 = k'
      · subst h2
        simp [mapSet, mapGet, h1]
      · simp [mapSet, mapGet, h1, h2, ih]

theorem mapGet_eq_none_of_not_mem {α : Type} (m : GoMap α) (k : String)
    (h : k ∉ m.map Prod.fst) : mapGet m k = none := by
  induction m with
  | nil => rfl
  | cons e rest ih =>
    obtain ⟨k1, v1⟩ := e
    simp only [List.map_cons, List.mem_cons, not_or] at h
    simp [mapGet, Ne.symm h.1, ih h.2]

theorem mapGet_isSome_of_mem {α : Type} (m : GoMap α) (k : String)
    (h : k ∈ m.map Prod.fst) : ∃ v, mapGet m k = some v := by
  induction m with
  | nil => simp at h
  | cons e rest ih =>
    obtain ⟨k1, v1⟩ := e
    by_cases h1 : k1 = k
    · exact ⟨v1, by simp [mapGet, h1]⟩
    · simp only [List.map_cons, List.mem_cons] at h
      rcases h with h | h
      · exact absurd h.symm h1
      · obtain ⟨v, hv⟩ := ih h
        exact ⟨v, by simp [mapGet, h1, hv]⟩

theorem mapSet_keys_of_mem {α : Type} (m : GoMap α) (k : String) (v : α)
    (h : k ∈ m.map Prod.fst) : (mapSet m k v).map Prod.fst = m.map Prod.fst := by
  induction m with
  | nil => simp at h
  | cons e rest ih =>
    obtain ⟨k1, v1⟩ := e
    by_cases h1 : k1 = k
    · simp [mapSet, h1]
    · simp only [List.map_cons, List.mem_cons] at h
      rcases h with h | h
      · exact absurd h.symm h1
      · simp [mapSet, h1, ih h]

theorem mapSet_keys_of_not_mem {α : Type} (m : GoMap α) (k : String) (v : α)
    (h : k ∉ m.map Prod.fst) : (mapSet m k v).map Prod.fst = m.map Prod.fst ++ [k] := by
  induction m with
  | nil => simp [mapSet]
  | cons e rest ih =>
    obtain ⟨k1, v1⟩ := e
    simp only [List.map_cons, List.mem_cons, not_or] at h
    simp [mapSet, Ne.symm h.1, ih h.2]

theorem mem_mapSet {α : Type} (m : GoMap α) (k : String) (v : α) (e : String × α)
    (h : e ∈ mapSet m k v) : e = (k, v) ∨ e ∈ m := by
  induction m with
  | nil =>
    simp only [mapSet, List.mem_singleton] at h
    exact Or.inl h
  | cons e1 rest ih =>
    obtain ⟨k1, v1⟩ := e1
    by_cases h1 : k1 = k
    · simp only [mapSet, h1, if_true, List.mem_cons] at h
      rcases h with h | h
      · exact Or.inl h
      · exact Or.inr (List.mem_cons_of_mem _ h)
    · simp only [mapSet, h1, if_false, List.mem_cons] at h
      rcases h with h | h
      · exact Or.inr (by simp [h])
      · rcases ih h with h' | h'
        · exact Or.inl h'
        · exact Or.inr (List.mem_cons_of_mem _ h')

theorem mapSet_length_of_mem {α : Type} (m : GoMap α) (k : String) (v : α)
    (h : k ∈ m.map Prod.fst) : (mapSet m k v).length = m.length := by
  have := congrArg List.length (mapSet_keys_of_mem m k v h)
  simpa using this

theorem storeInv_mapSet (m : GoMap ServiceStatus) (r : ServiceStatus) (h : StoreInv m) :
    StoreInv (mapSet m r.Name r) := by
  refine ⟨?_, ?_⟩
  · intro k r' hmem
    rcases mem_mapSet m r.Name r (k, r') hmem with h' | h'
    · cases h'
      rfl
    · exact h.1 k r' h'
  · by_cases hk : r.Name ∈ m.map Prod.fst
    · rw [mapSet_keys_of_mem m _ _ hk]
      exact h.2
    · rw [mapSet_keys_of_not_mem m _ _ hk]
      exact List.Nodup.append h.2 (List.nodup_singleton _) (by simpa using hk)

theorem storeInv_names (m : GoMap ServiceStatus) (h : StoreInv m) :
    (m.map (fun e => e.2.Name)).Nodup := by
  have : m.map (fun e => e.2.Name) = m.map Prod.fst := by
    apply List.map_congr_left
    intro e he
    exact h.1 e.1 e.2 he
  rw [this]
  exact h.2

theorem mem_of_mapGet {α : Type} (m : GoMap α) (k : String) (v : α)
    (h : mapGet m k = some v) : (k, v) ∈ m := by
  induction m with
  | nil => simp [mapGet] at h
  | cons e rest ih =>
    obtain ⟨k1, v1⟩ := e
    by_cases h1 : k1 = k
    · simp only [mapGet, h1, if_true, Option.some.injEq] at h
      simp [h1, h]
    · simp only [mapGet, h1, if_false] at h
      exact List.mem_cons_of_mem _ (ih h)

/-! ## Every probe ends in one store write -/

theorem wrote_update (env : Env) (st st1 : Run) (reqs : List Request) (name ty : String)
    (h : Bool) (msg : String) (det : Details) (hd : st1.d = st.d)
    (ht : st1.trace = st.trace ++ reqs.map Event.request) :
    Wrote st (updateService env st1 name ty h msg det) reqs name ty h msg det := by
  refine ⟨env.now st1.trace, ?_, ?_⟩
  · simp [updateService, hd]
  · simp [updateService, ht]

theorem checkPlexHealth_wrote (env : Env) (config : Config) (st : Run) :
    ∃ reqs h msg det,
      Wrote st (checkPlexHealth env config st) reqs "plex" "media" h msg det := by
  by_cases ht : config.PlexToken = ""
  · simp only [checkPlexHealth, ht, if_true]
    exact ⟨[], _, _, _, wrote_update env st st [] _ _ _ _ _ rfl (by simp)⟩
  · cases hr : env.http st.trace
        (getRequest (config.PlexURL ++ "/?X-Plex-Token=" ++ config.PlexToken)) with
    | error e =>
      simp only [getRequest] at hr
      simp only [checkPlexHealth, httpGet, doRequest, ht, if_false, hr]
      exact ⟨[_], _, _, _, wrote_update env st _ [_] _ _ _ _ _ rfl rfl⟩
    | ok resp =>
      simp only [getRequest] at hr
      simp only [checkPlexHealth, httpGet, doRequest, ht, if_false, hr]
      split <;> exact ⟨[_], _, _, _, wrote_update env st _ [_] _ _ _ _ _ rfl rfl⟩

theorem checkTautulliHealth_wrote (env : Env) (config : Config) (st : Run) :
    ∃ reqs h msg det,
      Wrote st (checkTautulliHealth env config st) reqs "tautulli" "media" h msg det := by
  by_cases ht : config.TautulliAPIKey = ""
  · cases hr : env.http st.trace (getRequest config.TautulliURL) with
    | error e =>
      simp only [getRequest] at hr
      simp only [checkTautulliHealth, httpGet, doRequest, ht, if_true, hr]
      exact ⟨[_], _, _, _, wrote_update env st _ [_] _ _ _ _ _ rfl rfl⟩
    | ok resp =>
      simp only [getRequest] at hr
      simp only [checkTautulliHealth, httpGet, doRequest, ht, if_true, hr]
      split <;> exact ⟨[_], _, _, _, wrote_update env st _ [_] _ _ _ _ _ rfl rfl⟩
  · cases hr : env.http st.trace (getRequest (config.TautulliURL ++ "/api/v2?apikey=" ++
        config.TautulliAPIKey ++ "&cmd=get_activity")) with
    | error e =>
      simp only [getRequest] at hr
      simp only [checkTautulliHealth, httpGet, doRequest, ht, if_false, hr]
      exact ⟨[_], _, _, _, wrote_update env st _ [_] _ _ _ _ _ rfl rfl⟩
    | ok resp =>
      simp only [getRequest] at hr
      simp only [checkTautulliHealth, httpGet, doRequest, ht, if_false, hr]
      split <;> exact ⟨[_], _, _, _, wrote_update env st _ [_] _ _ _ _ _ rfl rfl⟩

theorem checkArrHealth_wrote (env : Env) (name url apiKey ty : String) (st : Run) :
    ∃ reqs h msg det,
      Wrote st (checkArrHealth env name url apiKey ty st) reqs name ty h msg det := by
  by_cases ht : apiKey = ""
  · simp only [checkArrHealth, ht, if_true]
    exact ⟨[], _, _, _, wrote_update env st st [] _ _ _ _ _ rfl (by simp)⟩
  · cases hr : env.http st.trace (getRequest (url ++ "/api/v3/health?apiKey=" ++ apiKey)) with
    | error e =>
      simp only [getRequest] at hr
      simp only [checkArrHealth, httpGet, doRequest, ht, if_false, hr]
      exact ⟨[_], _, _, _, wrote_update env st _ [_] _ _ _ _ _ rfl rfl⟩
    | ok resp =>
      simp only [getRequest] at hr
      simp only [checkArrHealth, httpGet, doRequest, ht, if_false, hr]
      exact ⟨[getRequest (url ++ "/api/v3/health?apiKey=" ++ apiKey),
        getRequest (url ++ "/api/v3/queue?apiKey=" ++ apiKey),
        getRequest (url ++ "/api/v3/system/status?apiKey=" ++ apiKey)], _, _, _,
        wrote_update env st _ _ _ _ _ _ _ rfl (by simp [getRequest])⟩

theorem checkBazarrHealth_wrote (env : Env) (config : Config) (st : Run) :
    ∃ reqs h msg det,
      Wrote st (checkBazarrHealth env config st) reqs "bazarr" "arr-stack" h msg det := by
  by_cases ht : config.BazarrAPIKey = ""
  · simp only [checkBazarrHealth, ht, if_true]
    exact ⟨[], _, _, _, wrote_update env st st [] _ _ _ _ _ rfl (by simp)⟩
  · cases hr : env.http st.trace
        (getRequest (config.BazarrURL ++ "/api/system/health?apikey=" ++ config.BazarrAPIKey)) with
    | error e =>
      simp only [getRequest] at hr
      simp only [checkBazarrHealth, httpGet, doRequest, ht, if_false, hr]
      exact ⟨[_], _, _, _, wrote_update env st _ [_] _ _ _ _ _ rfl rfl⟩
    | ok resp =>
      simp only [getRequest] at hr
      simp only [checkBazarrHealth, httpGet, doRequest, ht, if_false, hr]
      split
      · exact ⟨[getRequest (config.BazarrURL ++ "/api/system/health?apikey=" ++
            config.BazarrAPIKey),
          getRequest (config.BazarrURL ++ "/api/system/status?apikey=" ++
            config.BazarrAPIKey)], _, _, _,
          wrote_update env st _ _ _ _ _ _ _ rfl (by simp [getRequest])⟩
      · exact ⟨[_], _, _, _, wrote_update env st _ [_] _ _ _ _ _ rfl rfl⟩

theorem checkJackettHealth_wrote (env : Env) (config : Config) (st : Run) :
    ∃ reqs h msg det,
      Wrote st (checkJackettHealth env config st) reqs "jackett" "download" h msg det := by
  cases hr : env.http st.trace (getRequest (jackettHealthURL config)) with
  | error e =>
    simp only [getRequest] at hr
    simp only [checkJackettHealth, httpGet, doRequest, hr]
    exact ⟨[_], _, _, _, wrote_update env st _ [_] _ _ _ _ _ rfl rfl⟩
  | ok resp =>
    simp only [getRequest] at hr
    simp only [checkJackettHealth, httpGet, doRequest, hr]
    split <;> exact ⟨[_], _, _, _, wrote_update env st _ [_] _ _ _ _ _ rfl rfl⟩

theorem checkTransmissionHealth_wrote (env : Env) (config : Config) (st : Run) :
    ∃ reqs h msg det,
      Wrote st (checkTransmissionHealth env config st) reqs "transmission" "download"
        h msg det := by
  cases hr : env.http st.trace
      (getRequest (config.TransmissionURL ++ "/transmission/web/")) with
  | error e =>
    simp only [getRequest] at hr
    simp only [checkTransmissionHealth, httpGet, doRequest, hr]
    exact ⟨[_], _, _, _, wrote_update env st _ [_] _ _ _ _ _ rfl rfl⟩
  | ok resp =>
    simp only [getRequest] at hr
    simp only [checkTransmissionHealth, httpGet, doRequest, hr]
    split <;> exact ⟨[_], _, _, _, wrote_update env st _ [_] _ _ _ _ _ rfl rfl⟩

theorem checkArgoHealth_wrote (env : Env) (config : Config) (st st' : Run)
    (h : checkArgoHealth env config st = some st') :
    ∃ reqs h msg det, Wrote st st' reqs "argocd" "infrastructure" h msg det := by
  by_cases ht : config.ArgoToken = ""
  · cases hr : env.http st.trace (getRequest (config.ArgoURL ++ "/api/v1/session")) with
    | error e =>
      simp only [getRequest] at hr
      simp only [checkArgoHealth, httpGet, doRequest, ht, if_true, hr, Option.some.injEq] at h
      subst h
      exact ⟨[_], _, _, _, wrote_update env st _ [_] _ _ _ _ _ rfl rfl⟩
    | ok resp =>
      simp only [getRequest] at hr
      simp only [checkArgoHealth, httpGet, doRequest, ht, if_true, hr] at h
      split at h <;> cases h <;>
        exact ⟨[_], _, _, _, wrote_update env st _ [_] _ _ _ _ _ rfl rfl⟩
  · by_cases hu : env.urlParses (config.ArgoURL ++ "/api/v1/applications") = true
    · cases hr : env.http st.trace
          { url := config.ArgoURL ++ "/api/v1/applications"
            headers := [("Authorization", "Bearer " ++ config.ArgoToken)] } with
      | error e =>
        simp only [checkArgoHealth, doRequest, ht, if_false, hu, if_true, hr,
          Option.some.injEq] at h
        subst h
        exact ⟨[_], _, _, _, wrote_update env st _ [_] _ _ _ _ _ rfl rfl⟩
      | ok resp =>
        simp only [checkArgoHealth, doRequest, ht, if_false, hu, if_true, hr] at h
        split at h <;> cases h <;>
          exact ⟨[_], _, _, _, wrote_update env st _ [_] _ _ _ _ _ rfl rfl⟩
    · simp [checkArgoHealth, ht, hu] at h

theorem wrote_storeInv (st st' : Run) (reqs : List Request) (name ty : String) (h : Bool)
    (msg : String) (det : Details) (hw : Wrote st st' reqs name ty h msg det)
    (hi : StoreInv st.d.Services) : StoreInv st'.d.Services := by
  obtain ⟨t, hs, -⟩ := hw
  rw [hs]
  exact storeInv_mapSet _ _ hi

theorem reachable_storeInv (st : Run) (h : Reachable st) : StoreInv st.d.Services := by
  induction h with
  | init => exact ⟨by simp [mainInit], by simp [mainInit]⟩
  | update env st name ty hl msg det _ ih =>
    exact wrote_storeInv st _ [] name ty hl msg det
      (wrote_update env st st [] _ _ _ _ _ rfl (by simp)) ih
  | plex env config st _ ih =>
    obtain ⟨reqs, hl, msg, det, hw⟩ := checkPlexHealth_wrote env config st
    exact wrote_storeInv _ _ _ _ _ _ _ _ hw ih
  | tautulli env config st _ ih =>
    obtain ⟨reqs, hl, msg, det, hw⟩ := checkTautulliHealth_wrote env config st
    exact wrote_storeInv _ _ _ _ _ _ _ _ hw ih
  | arr env name url apiKey ty st _ ih =>
    obtain ⟨reqs, hl, msg, det, hw⟩ := checkArrHealth_wrote env name url apiKey ty st
    exact wrote_storeInv _ _ _ _ _ _ _ _ hw ih
  | bazarr env config st _ ih =>
    obtain ⟨reqs, hl, msg, det, hw⟩ := checkBazarrHealth_wrote env config st
    exact wrote_storeInv _ _ _ _ _ _ _ _ hw ih
  | jackett env config st _ ih =>
    obtain ⟨reqs, hl, msg, det, hw⟩ := checkJackettHealth_wrote env config st
    exact wrote_storeInv _ _ _ _ _ _ _ _ hw ih
  | transmission env config st _ ih =>
    obtain ⟨reqs, hl, msg, det, hw⟩ := checkTransmissionHealth_wrote env config st
    exact wrote_storeInv _ _ _ _ _ _ _ _ hw ih
  | argo env config st st' _ he ih =>
    obtain ⟨reqs, hl, msg, det, hw⟩ := checkArgoHealth_wrote env config st st' he
    exact wrote_storeInv _ _ _ _ _ _ _ _ hw ih

/-! ## C1: the status store round trip -/

theorem applyWrites_append (env : Env) (st : Run) (xs ys : List StatusWrite) :
    applyWrites env st (xs ++ ys) = applyWrites env (applyWrites env st xs) ys := by
  simp [applyWrites, List.foldl_append]

theorem applyWrite_get_self (env : Env) (st : Run) (w : StatusWrite) :
    ∃ r, mapGet (applyWrite env st w).d.Services w.name = some r ∧ SameFields r w := by
  refine ⟨_, mapGet_mapSet_self _ _ _, ?_⟩
  simp [SameFields]

theorem applyWrites_get_other (env : Env) (ws : List StatusWrite) (st : Run) (k : String)
    (h : ∀ w ∈ ws, w.name ≠ k) :
    mapGet (applyWrites env st ws).d.Services k = mapGet st.d.Services k := by
  induction ws generalizing st with
  | nil => rfl
  | cons w rest ih =>
    have hw : w.name ≠ k := h w (List.mem_cons_self _ _)
    have hrest : ∀ w' ∈ rest, w'.name ≠ k := fun w' hw' => h w' (List.mem_cons_of_mem _ hw')
    have step : applyWrites env st (w :: rest) = applyWrites env (applyWrite env st w) rest := rfl
    rw [step, ih (applyWrite env st w) hrest]
    exact mapGet_mapSet_ne _ _ _ _ (Ne.symm hw)

theorem applyWrites_keys (env : Env) (ws : List StatusWrite) (st : Run)
    (hnd : (ws.map (fun w => w.name)).Nodup)
    (hdisj : ∀ w ∈ ws, w.name ∉ st.d.Services.map Prod.fst) :
    (applyWrites env st ws).d.Services.map Prod.fst =
      st.d.Services.map Prod.fst ++ ws.map (fun w => w.name) := by
  induction ws generalizing st with
  | nil => simp [applyWrites]
  | cons w rest ih =>
    have step : applyWrites env st (w :: rest) = applyWrites env (applyWrite env st w) rest := rfl
    have hw : w.name ∉ st.d.Services.map Prod.fst := hdisj w (List.mem_cons_self _ _)
    have hkeys : (applyWrite env st w).d.Services.map Prod.fst =
        st.d.Services.map Prod.fst ++ [w.name] := mapSet_keys_of_not_mem _ _ _ hw
    simp only [List.map_cons, List.nodup_cons] at hnd
    rw [step, ih (applyWrite env st w) hnd.2, hkeys]
    · simp
    · intro w' hw' hmem
      rw [hkeys] at hmem
      rcases List.mem_append.1 hmem with h1 | h1
      · exact hdisj w' (List.mem_cons_of_mem _ hw') h1
      · simp only [List.mem_singleton] at h1
        exact hnd.1 (h1 ▸ List.mem_map_of_mem (fun w => w.name) hw')

/-- C1. Status store round trip.  From any store, after a sequence `ws` of `updateService`
calls the entry read under a written name carries exactly the five fields of the last
write for that name; `N` writes with pairwise distinct names into an empty store leave
exactly `N` entries, keyed by the written names; and a write under a name that is already
present keeps the number of entries and replaces the record wholesale: the stored details
are the new details, so every key found in them is a key of the new details. -/
theorem store_round_trip (env : Env) (st : Run) (ws : List StatusWrite) :
    (∀ pre w post, ws = pre ++ w :: post → (∀ w' ∈ post, w'.name ≠ w.name) →
      ∃ r, mapGet (applyWrites env st ws).d.Services w.name = some r ∧ SameFields r w) ∧
    (st.d.Services = [] → (ws.map (fun w => w.name)).Nodup →
      (applyWrites env st ws).d.Services.length = ws.length ∧
      (applyWrites env st ws).d.Services.map Prod.fst = ws.map (fun w => w.name)) ∧
    (∀ w old, mapGet st.d.Services w.name = some old →
      (applyWrite env st w).d.Services.length = st.d.Services.length ∧
      ∃ r, mapGet (applyWrite env st w).d.Services w.name = some r ∧ SameFields r w ∧
        ∀ key, key ∈ detailsKeys r.Details → key ∈ detailsKeys w.details) := by
  refine ⟨?_, ?_, ?_⟩
  · intro pre w post hws hpost
    subst hws
    have step : applyWrites env st (pre ++ w :: post) =
        applyWrites env (applyWrite env (applyWrites env st pre) w) post := by
      rw [applyWrites_append]
      rfl
    rw [step, applyWrites_get_other env post _ w.name hpost]
    exact applyWrite_get_self env _ w
  · intro hempty hnd
    have hk := applyWrites_keys env ws st hnd (by simp [hempty])
    simp only [hempty, List.map_nil, List.nil_append] at hk
    refine ⟨?_, hk⟩
    have := congrArg List.length hk
    simpa using this
  · intro w old hold
    have hmem : w.name ∈ st.d.Services.map Prod.fst :=
      List.mem_map_of_mem Prod.fst (mem_of_mapGet _ _ _ hold)
    refine ⟨mapSet_length_of_mem _ _ _ hmem, ?_⟩
    obtain ⟨r, hr, hf⟩ := applyWrite_get_self env st w
    refine ⟨r, hr, hf, ?_⟩
    intro key hkey
    rw [hf.2.2.2.2] at hkey
    exact hkey

/-- Witness of C1: two writes for radarr and one for plex into the empty store. -/
theorem store_round_trip_witness :
    (∃ r, mapGet (applyWrites envDown mainInit
        [writeRadarrOld, writePlex, writeRadarrNew]).d.Services "radarr" = some r ∧
      SameFields r writeRadarrNew) ∧
    ((applyWrites envDown mainInit [writeRadarrOld, writePlex]).d.Services.length = 2 ∧
      (applyWrites envDown mainInit [writeRadarrOld, writePlex]).d.Services.map Prod.fst =
        ["radarr", "plex"]) ∧
    ((applyWrite envDown (applyWrites envDown mainInit [writeRadarrOld, writePlex])
        writeRadarrNew).d.Services.length = 2 ∧
      ∃ r, mapGet (applyWrite envDown (applyWrites envDown mainInit
          [writeRadarrOld, writePlex]) writeRadarrNew).d.Services "radarr" = some r ∧
        SameFields r writeRadarrNew ∧
        ∀ key, key ∈ detailsKeys r.Details → key ∈ detailsKeys writeRadarrNew.details) :=
  ⟨(store_round_trip envDown mainInit [writeRadarrOld, writePlex, writeRadarrNew]).1
      [writeRadarrOld, writePlex] writeRadarrNew [] rfl (by simp),
    (store_round_trip envDown mainInit [writeRadarrOld, writePlex]).2.1 rfl (by decide),
    (store_round_trip envDown (applyWrites envDown mainInit [writeRadarrOld, writePlex])
      []).2.2 writeRadarrNew
      { Name := "radarr", ServiceType := "arr-stack", Healthy := true, LastChecked := 0,
        Message := "All systems operational",
        Details := some [("queue_size", Value.int 2), ("version", Value.str "4.5.0")] } rfl⟩

/-! ## C2: one record per name -/

/-- C2. One record per name.  In every state reachable from the empty store built in
`main` by `updateService` calls and probe invocations, every entry stored under a key `k`
is a record whose `Name` is `k` (read either as a list entry or through a lookup), no key
occurs twice, and so no two records of the store share a name. -/
theorem one_record_per_name (st : Run) (h : Reachable st) :
    (∀ k r, (k, r) ∈ st.d.Services → r.Name = k) ∧
    (∀ k r, mapGet st.d.Services k = some r → r.Name = k) ∧
    (st.d.Services.map Prod.fst).Nodup ∧
    (st.d.Services.map (fun e => e.2.Name)).Nodup := by
  have hi := reachable_storeInv st h
  exact ⟨hi.1, fun k r hg => hi.1 k r (mem_of_mapGet _ _ _ hg), hi.2, storeInv_names _ hi⟩

/-- Witness of C2: the state after a plex probe, a radarr probe and a second plex probe
against unreachable services. -/
theorem one_record_per_name_witness :
    (checkPlexHealth envDown (configWithKeys "k")
      (checkArrHealth envDown "radarr" "http://radarr.arr-stack:7878" "k" "arr-stack"
        (checkPlexHealth envDown configDefault mainInit))).d.Services.map
          (fun e => e.2.Name) = ["plex", "radarr"] ∧
    ((checkPlexHealth envDown (configWithKeys "k")
      (checkArrHealth envDown "radarr" "http://radarr.arr-stack:7878" "k" "arr-stack"
        (checkPlexHealth envDown configDefault mainInit))).d.Services.map
          (fun e => e.2.Name)).Nodup :=
  ⟨rfl, (one_record_per_name _
    (Reachable.plex envDown (configWithKeys "k") _
      (Reachable.arr envDown "radarr" "http://radarr.arr-stack:7878" "k" "arr-stack" _
        (Reachable.plex envDown configDefault mainInit Reachable.init)))).2.2.2⟩

/-! ## C3: missing credentials -/

/-- C3. Missing credential short-circuit.  When the required credential is the empty
string (`PlexToken` for `checkPlexHealth`, `apiKey` for `checkArrHealth` under any service
name, `BazarrAPIKey` for `checkBazarrHealth`), the probe issues no outbound request and
writes one record with `healthy = false`, nil details and the message
"No API token configured" (Plex) or "No API key configured" (arr services, Bazarr), for
every URL and every environment. -/
theorem missing_credential_short_circuit (env : Env) (config : Config) (st : Run) :
    (config.PlexToken = "" →
      Wrote st (checkPlexHealth env config st) [] "plex" "media" false
        "No API token configured" none) ∧
    (∀ name url serviceType : String,
      Wrote st (checkArrHealth env name url "" serviceType st) [] name serviceType false
        "No API key configured" none) ∧
    (config.BazarrAPIKey = "" →
      Wrote st (checkBazarrHealth env config st) [] "bazarr" "arr-stack" false
        "No API key configured" none) := by
  refine ⟨?_, ?_, ?_⟩
  · intro ht
    simp only [checkPlexHealth, ht, if_true]
    exact wrote_update env st st [] _ _ _ _ _ rfl (by simp)
  · intro name url serviceType
    simp only [checkArrHealth, if_true]
    exact wrote_update env st st [] _ _ _ _ _ rfl (by simp)
  · intro ht
    simp only [checkBazarrHealth, ht, if_true]
    exact wrote_update env st st [] _ _ _ _ _ rfl (by simp)

/-- Witness of C3: the default configuration (no credential set) against an upstream
that would answer every request with 200 and an empty issue list. -/
theorem missing_credential_short_circuit_witness :
    configDefault.PlexToken = "" ∧ configDefault.BazarrAPIKey = "" ∧
    Wrote mainInit (checkPlexHealth (envAnswer 200 (some (Json.arr []))) configDefault mainInit)
      [] "plex" "media" false "No API token configured" none ∧
    Wrote mainInit (checkBazarrHealth (envAnswer 200 (some (Json.arr []))) configDefault
      mainInit) [] "bazarr" "arr-stack" false "No API key configured" none :=
  ⟨rfl, rfl,
    (missing_credential_short_circuit (envAnswer 200 (some (Json.arr []))) configDefault
      mainInit).1 rfl,
    (missing_credential_short_circuit (envAnswer 200 (some (Json.arr []))) configDefault
      mainInit).2.2 rfl⟩

/-! ## C4: status codes outside the success set -/

/-- C4, as the code has it.  When the primary request of a probe is answered with a
status code outside the probe's success set (200; for Transmission also 301 and 302), the
probes that inspect the code (Plex, Tautulli with and without API key, Bazarr, Jackett,
Transmission, ArgoCD with a token) issue no further request and write one record with
`healthy = false`, nil details and the message "HTTP " followed by the decimal code;
ArgoCD without a token writes `healthy = false` with the message "No token configured". -/
theorem non_success_status (env : Env) (config : Config) (st : Run) (resp : Response) :
    (config.PlexToken ≠ "" →
      env.http st.trace
        (getRequest (config.PlexURL ++ "/?X-Plex-Token=" ++ config.PlexToken)) =
          HttpResult.ok resp →
      resp.StatusCode ≠ 200 →
      Wrote st (checkPlexHealth env config st)
        [getRequest (config.PlexURL ++ "/?X-Plex-Token=" ++ config.PlexToken)]
        "plex" "media" false ("HTTP " ++ toString resp.StatusCode) none) ∧
    (config.TautulliAPIKey = "" →
      env.http st.trace (getRequest config.TautulliURL) = HttpResult.ok resp →
      resp.StatusCode ≠ 200 →
      Wrote st (checkTautulliHealth env config st) [getRequest config.TautulliURL]
        "tautulli" "media" false ("HTTP " ++ toString resp.StatusCode) none) ∧
    (config.TautulliAPIKey ≠ "" →
      env.http st.trace (getRequest (config.TautulliURL ++ "/api/v2?apikey=" ++
        config.TautulliAPIKey ++ "&cmd=get_activity")) = HttpResult.ok resp →
      resp.StatusCode ≠ 200 →
      Wrote st (checkTautulliHealth env config st)
        [getRequest (config.TautulliURL ++ "/api/v2?apikey=" ++
          config.TautulliAPIKey ++ "&cmd=get_activity")]
        "tautulli" "media" false ("HTTP " ++ toString resp.StatusCode) none) ∧
    (config.BazarrAPIKey ≠ "" →
      env.http st.trace (getRequest (config.BazarrURL ++ "/api/system/health?apikey=" ++
        config.BazarrAPIKey)) = HttpResult.ok resp →
      resp.StatusCode ≠ 200 →
      Wrote st (checkBazarrHealth env config st)
        [getRequest (config.BazarrURL ++ "/api/system/health?apikey=" ++
          config.BazarrAPIKey)]
        "bazarr" "arr-stack" false ("HTTP " ++ toString resp.StatusCode) none) ∧
    (env.http st.trace (getRequest (jackettHealthURL config)) = HttpResult.ok resp →
      resp.StatusCode ≠ 200 →
      Wrote st (checkJackettHealth env config st) [getRequest (jackettHealthURL config)]
        "jackett" "download" false ("HTTP " ++ toString resp.StatusCode) none) ∧
    (env.http st.trace (getRequest (config.TransmissionURL ++ "/transmission/web/")) =
        HttpResult.ok resp →
      resp.StatusCode ≠ 200 → resp.StatusCode ≠ 301 → resp.StatusCode ≠ 302 →
      Wrote st (checkTransmissionHealth env config st)
        [getRequest (config.TransmissionURL ++ "/transmission/web/")]
        "transmission" "download" false ("HTTP " ++ toString resp.StatusCode) none) ∧
    (config.ArgoToken ≠ "" →
      env.urlParses (config.ArgoURL ++ "/api/v1/applications") = true →
      env.http st.trace
        { url := config.ArgoURL ++ "/api/v1/applications"
          headers := [("Authorization", "Bearer " ++ config.ArgoToken)] } =
          HttpResult.ok resp →
      resp.StatusCode ≠ 200 →
      ∃ st', checkArgoHealth env config st = some st' ∧
        Wrote st st'
          [{ url := config.ArgoURL ++ "/api/v1/applications"
             headers := [("Authorization", "Bearer " ++ config.ArgoToken)] }]
          "argocd" "infrastructure" false ("HTTP " ++ toString resp.StatusCode) none) ∧
    (config.ArgoToken = "" →
      env.http st.trace (getRequest (config.ArgoURL ++ "/api/v1/session")) =
        HttpResult.ok resp →
      resp.StatusCode ≠ 200 →
      ∃ st', checkArgoHealth env config st = some st' ∧
        Wrote st st' [getRequest (config.ArgoURL ++ "/api/v1/session")]
          "argocd" "infrastructure" false "No token configured" none) := by
  refine ⟨?_, ?_, ?_, ?_, ?_, ?_, ?_, ?_⟩
  · intro ht hr hc
    simp only [getRequest] at hr
    simp only [checkPlexHealth, httpGet, doRequest, ht, if_false, hr, hc]
    exact wrote_update env st _ [_] _ _ _ _ _ rfl rfl
  · intro ht hr hc
    simp only [getRequest] at hr
    simp only [checkTautulliHealth, httpGet, doRequest, ht, if_true, if_false, hr, hc]
    exact wrote_update env st _ [_] _ _ _ _ _ rfl rfl
  · intro ht hr hc
    simp only [getRequest] at hr
    simp only [checkTautulliHealth, httpGet, doRequest, ht, if_false, hr, hc]
    exact wrote_update env st _ [_] _ _ _ _ _ rfl rfl
  · intro ht hr hc
    simp only [getRequest] at hr
    simp only [checkBazarrHealth, httpGet, doRequest, ht, if_false, hr, hc]
    exact wrote_update env st _ [_] _ _ _ _ _ rfl rfl
  · intro hr hc
    simp only [getRequest] at hr
    simp only [checkJackettHealth, httpGet, doRequest, hr, hc, if_false]
    exact wrote_update env st _ [_] _ _ _ _ _ rfl rfl
  · intro hr h200 h301 h302
    simp only [getRequest] at hr
    simp only [checkTransmissionHealth, httpGet, doRequest, hr, h200, h301, h302, or_self,
      if_false]
    exact wrote_update env st _ [_] _ _ _ _ _ rfl rfl
  · intro ht hu hr hc
    simp only [checkArgoHealth, doRequest, ht, if_false, hu, if_true, hr, hc]
    exact ⟨_, rfl, wrote_update env st _ [_] _ _ _ _ _ rfl rfl⟩
  · intro ht hr hc
    simp only [getRequest] at hr
    simp only [checkArgoHealth, httpGet, doRequest, ht, if_true, hr, hc, if_false]
    exact ⟨_, rfl, wrote_update env st _ [_] _ _ _ _ _ rfl rfl⟩

/-- Witness of C4: every request is answered with 503; Plex with a token, Transmission,
and ArgoCD with and without a token. -/
theorem non_success_status_witness :
    Wrote mainInit (checkPlexHealth (envAnswer 503 none) (configWithKeys "k") mainInit)
      [getRequest "http://plex.media:32400/?X-Plex-Token=k"]
      "plex" "media" false "HTTP 503" none ∧
    Wrote mainInit (checkTransmissionHealth (envAnswer 503 none) configDefault mainInit)
      [getRequest "http://gluetun-transmission.download:9091/transmission/web/"]
      "transmission" "download" false "HTTP 503" none ∧
    (∃ st', checkArgoHealth (envAnswer 503 none) (configWithKeys "k") mainInit = some st' ∧
      Wrote mainInit st'
        [{ url := "http://argocd-server.argocd:8080/api/v1/applications"
           headers := [("Authorization", "Bearer k")] }]
        "argocd" "infrastructure" false "HTTP 503" none) ∧
    (∃ st', checkArgoHealth (envAnswer 503 none) configDefault mainInit = some st' ∧
      Wrote mainInit st' [getRequest "http://argocd-server.argocd:8080/api/v1/session"]
        "argocd" "infrastructure" false "No token configured" none) :=
  ⟨(non_success_status (envAnswer 503 none) (configWithKeys "k") mainInit
      { StatusCode := 503, Header := fun _ => "", Body := none }).1
      (by decide) rfl (by decide),
    (non_success_status (envAnswer 503 none) configDefault mainInit
      { StatusCode := 503, Header := fun _ => "", Body := none }).2.2.2.2.2.1
      rfl (by decide) (by decide) (by decide),
    (non_success_status (envAnswer 503 none) (configWithKeys "k") mainInit
      { StatusCode := 503, Header := fun _ => "", Body := none }).2.2.2.2.2.2.1
      (by decide) rfl rfl (by decide),
    (non_success_status (envAnswer 503 none) configDefault mainInit
      { StatusCode := 503, Header := fun _ => "", Body := none }).2.2.2.2.2.2.2
      rfl rfl (by decide)⟩

/-- Counterexample to C4 as stated.  Radarr answers every request with 401 and the body
`{"error": "Unauthorized"}`: `checkArrHealth` never looks at the status code and writes a
healthy record "All systems operational", not an unhealthy "HTTP 401".  ArgoCD without a
token answers 500: the record says "No token configured", not "HTTP 500". -/
theorem non_success_status_counterexample :
    (Wrote mainInit
        (checkArrHealth (envAnswer 401 (some (Json.obj [("error", Json.str "Unauthorized")])))
          "radarr" "http://radarr.arr-stack:7878" "k" "arr-stack" mainInit)
        [getRequest "http://radarr.arr-stack:7878/api/v3/health?apiKey=k",
          getRequest "http://radarr.arr-stack:7878/api/v3/queue?apiKey=k",
          getRequest "http://radarr.arr-stack:7878/api/v3/system/status?apiKey=k"]
        "radarr" "arr-stack" true "All systems operational" (some []) ∧
      ¬ ∃ reqs det, Wrote mainInit
        (checkArrHealth (envAnswer 401 (some (Json.obj [("error", Json.str "Unauthorized")])))
          "radarr" "http://radarr.arr-stack:7878" "k" "arr-stack" mainInit)
        reqs "radarr" "arr-stack" false "HTTP 401" det) ∧
    (∃ st', checkArgoHealth (envAnswer 500 none) configDefault mainInit = some st' ∧
      Wrote mainInit st' [getRequest "http://argocd-server.argocd:8080/api/v1/session"]
        "argocd" "infrastructure" false "No token configured" none ∧
      ¬ ∃ reqs det, Wrote mainInit st' reqs "argocd" "infrastructure" false "HTTP 500" det) := by
  refine ⟨⟨⟨_, rfl, rfl⟩, ?_⟩, ⟨_, rfl, ⟨_, rfl, rfl⟩, ?_⟩⟩
  · rintro ⟨reqs, det, t, hs, -⟩
    have hv : (checkArrHealth
        (envAnswer 401 (some (Json.obj [("error", Json.str "Unauthorized")])))
        "radarr" "http://radarr.arr-stack:7878" "k" "arr-stack" mainInit).d.Services =
        [("radarr",
          { Name := "radarr", ServiceType := "arr-stack", Healthy := true, LastChecked := 3,
            Message := "All systems operational", Details := some [] })] := rfl
    rw [hv] at hs
    simp [mapSet, mainInit] at hs
  · rintro ⟨reqs, det, t, hs, -⟩
    simp [mapSet, mainInit, updateService] at hs

/-! ## C5: transport failures -/

/-- C5. Transport failure.  For every probe, when its primary request fails at the
transport level with error text `e` (and the required credential, if any, is non-empty),
the probe issues that one request and no other, and writes exactly one record, with
`healthy = false`, nil details and the message "Connection error: " followed by `e`.
For ArgoCD with a token the request is issued once `http.NewRequest` has accepted the
URL. -/
theorem transport_failure (env : Env) (config : Config) (st : Run) (e : String) :
    (config.PlexToken ≠ "" →
      env.http st.trace
        (getRequest (config.PlexURL ++ "/?X-Plex-Token=" ++ config.PlexToken)) =
          HttpResult.error e →
      Wrote st (checkPlexHealth env config st)
        [getRequest (config.PlexURL ++ "/?X-Plex-Token=" ++ config.PlexToken)]
        "plex" "media" false ("Connection error: " ++ e) none) ∧
    (config.TautulliAPIKey = "" →
      env.http st.trace (getRequest config.TautulliURL) = HttpResult.error e →
      Wrote st (checkTautulliHealth env config st) [getRequest config.TautulliURL]
        "tautulli" "media" false ("Connection error: " ++ e) none) ∧
    (config.TautulliAPIKey ≠ "" →
      env.http st.trace (getRequest (config.TautulliURL ++ "/api/v2?apikey=" ++
        config.TautulliAPIKey ++ "&cmd=get_activity")) = HttpResult.error e →
      Wrote st (checkTautulliHealth env config st)
        [getRequest (config.TautulliURL ++ "/api/v2?apikey=" ++
          config.TautulliAPIKey ++ "&cmd=get_activity")]
        "tautulli" "media" false ("Connection error: " ++ e) none) ∧
    (∀ name url apiKey serviceType : String, apiKey ≠ "" →
      env.http st.trace (getRequest (url ++ "/api/v3/health?apiKey=" ++ apiKey)) =
        HttpResult.error e →
      Wrote st (checkArrHealth env name url apiKey serviceType st)
        [getRequest (url ++ "/api/v3/health?apiKey=" ++ apiKey)]
        name serviceType false ("Connection error: " ++ e) none) ∧
    (config.BazarrAPIKey ≠ "" →
      env.http st.trace (getRequest (config.BazarrURL ++ "/api/system/health?apikey=" ++
        config.BazarrAPIKey)) = HttpResult.error e →
      Wrote st (checkBazarrHealth env config st)
        [getRequest (config.BazarrURL ++ "/api/system/health?apikey=" ++
          config.BazarrAPIKey)]
        "bazarr" "arr-stack" false ("Connection error: " ++ e) none) ∧
    (env.http st.trace (getRequest (jackettHealthURL config)) = HttpResult.error e →
      Wrote st (checkJackettHealth env config st) [getRequest (jackettHealthURL config)]
        "jackett" "download" false ("Connection error: " ++ e) none) ∧
    (env.http st.trace (getRequest (config.TransmissionURL ++ "/transmission/web/")) =
        HttpResult.error e →
      Wrote st (checkTransmissionHealth env config st)
        [getRequest (config.TransmissionURL ++ "/transmission/web/")]
        "transmission" "download" false ("Connection error: " ++ e) none) ∧
    (config.ArgoToken = "" →
      env.http st.trace (getRequest (config.ArgoURL ++ "/api/v1/session")) =
        HttpResult.error e →
      ∃ st', checkArgoHealth env config st = some st' ∧
        Wrote st st' [getRequest (config.ArgoURL ++ "/api/v1/session")]
          "argocd" "infrastructure" false ("Connection error: " ++ e) none) ∧
    (config.ArgoToken ≠ "" →
      env.urlParses (config.ArgoURL ++ "/api/v1/applications") = true →
      env.http st.trace
        { url := config.ArgoURL ++ "/api/v1/applications"
          headers := [("Authorization", "Bearer " ++ config.ArgoToken)] } =
          HttpResult.error e →
      ∃ st', checkArgoHealth env config st = some st' ∧
        Wrote st st'
          [{ url := config.ArgoURL ++ "/api/v1/applications"
             headers := [("Authorization", "Bearer " ++ config.ArgoToken)] }]
          "argocd" "infrastructure" false ("Connection error: " ++ e) none) := by
  refine ⟨?_, ?_, ?_, ?_, ?_, ?_, ?_, ?_, ?_⟩
  · intro ht hr
    simp only [getRequest] at hr
    simp only [checkPlexHealth, httpGet, doRequest, ht, if_false, hr]
    exact wrote_update env st _ [_] _ _ _ _ _ rfl rfl
  · intro ht hr
    simp only [getRequest] at hr
    simp only [checkTautulliHealth, httpGet, doRequest, ht, if_true, hr]
    exact wrote_update env st _ [_] _ _ _ _ _ rfl rfl
  · intro ht hr
    simp only [getRequest] at hr
    simp only [checkTautulliHealth, httpGet, doRequest, ht, if_false, hr]
    exact wrote_update env st _ [_] _ _ _ _ _ rfl rfl
  · intro name url apiKey serviceType ht hr
    simp only [getRequest] at hr
    simp only [checkArrHealth, httpGet, doRequest, ht, if_false, hr]
    exact wrote_update env st _ [_] _ _ _ _ _ rfl rfl
  · intro ht hr
    simp only [getRequest] at hr
    simp only [checkBazarrHealth, httpGet, doRequest, ht, if_false, hr]
    exact wrote_update env st _ [_] _ _ _ _ _ rfl rfl
  · intro hr
    simp only [getRequest] at hr
    simp only [checkJackettHealth, httpGet, doRequest, hr]
    exact wrote_update env st _ [_] _ _ _ _ _ rfl rfl
  · intro hr
    simp only [getRequest] at hr
    simp only [checkTransmissionHealth, httpGet, doRequest, hr]
    exact wrote_update env st _ [_] _ _ _ _ _ rfl rfl
  · intro ht hr
    simp only [getRequest] at hr
    simp only [checkArgoHealth, httpGet, doRequest, ht, if_true, hr]
    exact ⟨_, rfl, wrote_update env st _ [_] _ _ _ _ _ rfl rfl⟩
  · intro ht hu hr
    simp only [checkArgoHealth, doRequest, ht, if_false, hu, if_true, hr]
    exact ⟨_, rfl, wrote_update env st _ [_] _ _ _ _ _ rfl rfl⟩

/-- Witness of C5: every service refuses the connection; Plex and Radarr with a
credential, Transmission, and ArgoCD with a token. -/
theorem transport_failure_witness :
    Wrote mainInit (checkPlexHealth envDown (configWithKeys "k") mainInit)
      [getRequest "http://plex.media:32400/?X-Plex-Token=k"]
      "plex" "media" false "Connection error: connection refused" none ∧
    Wrote mainInit
      (checkArrHealth envDown "radarr" "http://radarr.arr-stack:7878" "k" "arr-stack" mainInit)
      [getRequest "http://radarr.arr-stack:7878/api/v3/health?apiKey=k"]
      "radarr" "arr-stack" false "Connection error: connection refused" none ∧
    Wrote mainInit (checkTransmissionHealth envDown configDefault mainInit)
      [getRequest "http://gluetun-transmission.download:9091/transmission/web/"]
      "transmission" "download" false "Connection error: connection refused" none ∧
    (∃ st', checkArgoHealth envDown (configWithKeys "k") mainInit = some st' ∧
      Wrote mainInit st'
        [{ url := "http://argocd-server.argocd:8080/api/v1/applications"
           headers := [("Authorization", "Bearer k")] }]
        "argocd" "infrastructure" false "Connection error: connection refused" none) :=
  ⟨(transport_failure envDown (configWithKeys "k") mainInit "connection refused").1
      (by decide) rfl,
    (transport_failure envDown configDefault mainInit "connection refused").2.2.2.1
      "radarr" "http://radarr.arr-stack:7878" "k" "arr-stack" (by decide) rfl,
    (transport_failure envDown configDefault mainInit "connection refused").2.2.2.2.2.2.1 rfl,
    (transport_failure envDown (configWithKeys "k") mainInit
      "connection refused").2.2.2.2.2.2.2.2 (by decide) rfl rfl⟩

/-! ## The arr probe after a health response -/

theorem checkArrHealth_ok (env : Env) (name url apiKey ty : String) (st : Run)
    (resp : Response) (hk : apiKey ≠ "")
    (hr : env.http st.trace (getRequest (url ++ "/api/v3/health?apiKey=" ++ apiKey)) =
      HttpResult.ok resp) :
    Wrote st (checkArrHealth env name url apiKey ty st) (arrRequests url apiKey) name ty
      (arrHealthVerdict resp.Body []).1 (arrHealthVerdict resp.Body []).2.1
      (some (arrStatusDetails (arrStatusResult env url apiKey st)
        (arrQueueDetails (arrQueueResult env url apiKey st)
          (arrHealthVerdict resp.Body []).2.2))) := by
  simp only [getRequest] at hr
  simp only [checkArrHealth, httpGet, doRequest, hk, if_false, hr]
  have h := wrote_update env st
    { d := st.d
      trace := st.trace ++ [Event.request (getRequest (url ++ "/api/v3/health?apiKey=" ++ apiKey))]
        ++ [Event.request (getRequest (url ++ "/api/v3/queue?apiKey=" ++ apiKey))]
        ++ [Event.request (getRequest (url ++ "/api/v3/system/status?apiKey=" ++ apiKey))] }
    (arrRequests url apiKey) name ty (arrHealthVerdict resp.Body []).1
    (arrHealthVerdict resp.Body []).2.1
    (some (arrStatusDetails (arrStatusResult env url apiKey st)
        (arrQueueDetails (arrQueueResult env url apiKey st)
          (arrHealthVerdict resp.Body []).2.2))) rfl (by simp [arrRequests])
  simpa [arrStatusResult, arrQueueResult, getRequest] using h

theorem arrQueueDetails_get_other (res : HttpResult) (d : GoMap Value) (k : String)
    (h : k ≠ "queue_size") : mapGet (arrQueueDetails res d) k = mapGet d k := by
  unfold arrQueueDetails
  split
  · split
    · split
      · exact mapGet_mapSet_ne _ _ _ _ h
      · rfl
    · rfl
  · rfl

theorem arrStatusDetails_get_other (res : HttpResult) (d : GoMap Value) (k : String)
    (h : k ≠ "version") : mapGet (arrStatusDetails res d) k = mapGet d k := by
  unfold arrStatusDetails
  split
  · split
    · split
      · exact mapGet_mapSet_ne _ _ _ _ h
      · rfl
    · rfl
  · rfl

/-! ## C6: the arr verdict -/

/-- C6. Arr health verdict.  For a `checkArrHealth` call with a non-empty API key whose
health request is answered (with any status code) by a body that `json.Unmarshal` decodes
without error as a JSON array of `n` objects (the decoder also lets `null` stand for an
object), the record written is healthy exactly when
`n = 0`; for `n = 0` the message is "All systems operational" and the details have no
`health_issues` key; for `n ≥ 1` the message is `n` in decimal followed by
" health issues detected" and `details["health_issues"]` is the decoded list, in order. -/
theorem arr_health_verdict (env : Env) (name url apiKey serviceType : String) (st : Run)
    (resp : Response) (items : List Value) (hk : apiKey ≠ "")
    (hr : env.http st.trace (getRequest (url ++ "/api/v3/health?apiKey=" ++ apiKey)) =
      HttpResult.ok resp)
    (hb : unmarshalMapSlice resp.Body = some items) :
    ∃ healthy message details,
      Wrote st (checkArrHealth env name url apiKey serviceType st) (arrRequests url apiKey)
        name serviceType healthy message (some details) ∧
      (healthy = true ↔ items.length = 0) ∧
      (items.length = 0 →
        message = "All systems operational" ∧ mapGet details "health_issues" = none) ∧
      (1 ≤ items.length →
        healthy = false ∧ message = toString items.length ++ " health issues detected" ∧
        mapGet details "health_issues" = some (Value.arr items)) := by
  refine ⟨_, _, _, checkArrHealth_ok env name url apiKey serviceType st resp hk hr, ?_, ?_, ?_⟩
  · simp only [arrHealthVerdict, hb]
    by_cases hn : items.length > 0
    · simp only [hn, if_true]
      constructor
      · intro h
        cases h
      · intro h
        omega
    · simp only [hn, if_false]
      constructor
      · intro _
        omega
      · intro _
        trivial
  · intro hn
    have hn' : ¬ items.length > 0 := by omega
    simp only [arrHealthVerdict, hb, hn', if_false]
    refine ⟨trivial, ?_⟩
    rw [arrStatusDetails_get_other _ _ _ (by decide),
      arrQueueDetails_get_other _ _ _ (by decide)]
    rfl
  · intro hn
    have hn' : items.length > 0 := by omega
    simp only [arrHealthVerdict, hb, hn', if_true]
    refine ⟨trivial, trivial, ?_⟩
    rw [arrStatusDetails_get_other _ _ _ (by decide),
      arrQueueDetails_get_other _ _ _ (by decide)]
    exact mapGet_mapSet_self _ _ _

/-- Witness of C6: radarr answers the health call with two issues (and every other call
with the same body). -/
theorem arr_health_verdict_witness :
    ∃ healthy message details,
      Wrote mainInit
        (checkArrHealth
          (envAnswer 200 (some (Json.arr [Json.obj [("type", Json.str "warning")],
            Json.obj [("type", Json.str "error")]])))
          "radarr" "http://radarr.arr-stack:7878" "k" "arr-stack" mainInit)
        (arrRequests "http://radarr.arr-stack:7878" "k")
        "radarr" "arr-stack" healthy message (some details) ∧
      (healthy = true ↔ (2 : Nat) = 0) ∧
      ((2 : Nat) = 0 →
        message = "All systems operational" ∧ mapGet details "health_issues" = none) ∧
      (1 ≤ (2 : Nat) →
        healthy = false ∧ message = "2 health issues detected" ∧
        mapGet details "health_issues" =
          some (Value.arr [Value.obj [("type", Value.str "warning")],
            Value.obj [("type", Value.str "error")]])) :=
  arr_health_verdict
    (envAnswer 200 (some (Json.arr [Json.obj [("type", Json.str "warning")],
      Json.obj [("type", Json.str "error")]])))
    "radarr" "http://radarr.arr-stack:7878" "k" "arr-stack" mainInit
    { StatusCode := 200, Header := fun _ => ""
      Body := some (Json.arr [Json.obj [("type", Json.str "warning")],
        Json.obj [("type", Json.str "error")]]) }
    [Value.obj [("type", Value.str "warning")], Value.obj [("type", Value.str "error")]]
    (by decide) rfl rfl

/-- A health body that is an array of one object but holds a number outside `float64`,
`[{"a": 1e400}]`: `json.Unmarshal` returns an error, the verdict stays healthy and no
`health_issues` entry is written. -/
theorem arr_health_number_out_of_range :
    unmarshalMapSlice (some (Json.arr [Json.obj [("a", hugeNumber)]])) = none ∧
    Wrote mainInit
      (checkArrHealth (envAnswer 200 (some (Json.arr [Json.obj [("a", hugeNumber)]])))
        "radarr" "http://radarr.arr-stack:7878" "k" "arr-stack" mainInit)
      (arrRequests "http://radarr.arr-stack:7878" "k")
      "radarr" "arr-stack" true "All systems operational" (some []) :=
  ⟨rfl, ⟨_, rfl, rfl⟩⟩

/-! ## C7: the arr enrichment details -/

theorem arrQueueDetails_records (res : HttpResult) (d : GoMap Value) (k : Nat)
    (h : QueueWithRecords res k) :
    arrQueueDetails res d = mapSet d "queue_size" (Value.int k) := by
  obtain ⟨resp, m, recs, rfl, hb, hrec, rfl⟩ := h
  simp [arrQueueDetails, hb, hrec, asList]

theorem arrStatusDetails_version (res : HttpResult) (d : GoMap Value) (v : String)
    (h : StatusWithVersion res v) :
    arrStatusDetails res d = mapSet d "version" (Value.str v) := by
  obtain ⟨resp, m, rfl, hb, hver⟩ := h
  simp [arrStatusDetails, hb, hver, asString]

/-- C7, as the code has it.  For a `checkArrHealth` call with a non-empty API key where
the health request is answered with the empty list `[]`, the queue request with a body
that `json.Unmarshal` decodes without error (a JSON object in which every number fits a
`float64`) and whose `records` field is an array of `k` elements, and the status request
with a body that decodes without error and whose `version` field is the string `v`, the
record written is healthy, with the message "All systems operational" and the details
exactly `{queue_size: k, version: v}`. -/
theorem arr_enrichment_details (env : Env) (name url apiKey serviceType : String) (st : Run)
    (resp : Response) (k : Nat) (v : String) (hk : apiKey ≠ "")
    (hr : env.http st.trace (getRequest (url ++ "/api/v3/health?apiKey=" ++ apiKey)) =
      HttpResult.ok resp)
    (hb : resp.Body = some (Json.arr []))
    (hq : QueueWithRecords (arrQueueResult env url apiKey st) k)
    (hs : StatusWithVersion (arrStatusResult env url apiKey st) v) :
    Wrote st (checkArrHealth env name url apiKey serviceType st) (arrRequests url apiKey)
      name serviceType true "All systems operational"
      (some [("queue_size", Value.int k), ("version", Value.str v)]) := by
  have h := checkArrHealth_ok env name url apiKey serviceType st resp hk hr
  rw [arrStatusDetails_version _ _ v hs, arrQueueDetails_records _ _ k hq, hb] at h
  exact h

/-- Witness of C7: the scenario of the specification, `k = 2` and `v = "4.5.0"`. -/
theorem arr_enrichment_details_witness :
    Wrote mainInit
      (checkArrHealth envArrScenario "radarr" "http://radarr.arr-stack:7878" "k" "arr-stack"
        mainInit)
      (arrRequests "http://radarr.arr-stack:7878" "k")
      "radarr" "arr-stack" true "All systems operational"
      (some [("queue_size", Value.int 2), ("version", Value.str "4.5.0")]) :=
  arr_enrichment_details envArrScenario "radarr" "http://radarr.arr-stack:7878" "k"
    "arr-stack" mainInit
    { StatusCode := 200, Header := fun _ => "", Body := some (Json.arr []) }
    2 "4.5.0" (by decide) rfl rfl
    ⟨_, _, _, rfl, rfl, rfl, rfl⟩ ⟨_, _, rfl, rfl, rfl⟩

/-- Counterexample to C7 as stated.  Health answers `[]`, the status call
`{"version": "4.5.0"}` and the queue call `{"records": [{}, {}], "total": 1e400}`, a JSON
object whose `records` field is an array of two elements.  The number `1e400` is outside
`float64`, `json.Unmarshal` returns an error for the queue body, and the record written
has the details `{version: "4.5.0"}` without `queue_size`. -/
theorem arr_enrichment_details_counterexample :
    arrQueueResult envArrHugeNumber "http://radarr.arr-stack:7878" "k" mainInit =
      HttpResult.ok
        { StatusCode := 200
          Header := fun _ => ""
          Body := some (Json.obj [("records", Json.arr [Json.obj [], Json.obj []]),
            ("total", hugeNumber)]) } ∧
    unmarshalMap (some (Json.obj [("records", Json.arr [Json.obj [], Json.obj []]),
      ("total", hugeNumber)])) = none ∧
    Wrote mainInit
      (checkArrHealth envArrHugeNumber "radarr" "http://radarr.arr-stack:7878" "k"
        "arr-stack" mainInit)
      (arrRequests "http://radarr.arr-stack:7878" "k")
      "radarr" "arr-stack" true "All systems operational"
      (some [("version", Value.str "4.5.0")]) ∧
    ¬ ∃ reqs, Wrote mainInit
      (checkArrHealth envArrHugeNumber "radarr" "http://radarr.arr-stack:7878" "k"
        "arr-stack" mainInit)
      reqs "radarr" "arr-stack" true "All systems operational"
      (some [("queue_size", Value.int 2), ("version", Value.str "4.5.0")]) := by
  refine ⟨rfl, rfl, ⟨_, rfl, rfl⟩, ?_⟩
  rintro ⟨reqs, t, hs, -⟩
  have hv : (checkArrHealth envArrHugeNumber "radarr" "http://radarr.arr-stack:7878" "k"
      "arr-stack" mainInit).d.Services =
      [("radarr",
        { Name := "radarr", ServiceType := "arr-stack", Healthy := true, LastChecked := 3,
          Message := "All systems operational",
          Details := some [("version", Value.str "4.5.0")] })] := rfl
  rw [hv] at hs
  simp [mapSet, mainInit] at hs

/-! ## C8: the ArgoCD application counts -/

theorem hasString_two (kvs : GoMap Value) (k1 k2 s : String) :
    hasString [k1, k2] s (Value.obj kvs) =
      match asMap (mapGet kvs k1) with
      | some m =>
        match asString (mapGet m k2) with
        | some t => decide (t = s)
        | none => false
      | none => false := by
  cases h1 : mapGet kvs k1 with
  | none => simp [hasString, fieldPath, h1, asMap]
  | some v =>
    cases v <;> simp [hasString, fieldPath, h1, asMap]
    rename_i m
    cases h2 : mapGet m k2 with
    | none => simp [asString]
    | some w => cases w <;> simp [asString]

theorem argoSyncStep_eq (status : GoMap Value) (c : ArgoCounts) :
    argoSyncStep status c =
      { synced := c.synced +
          (if hasString ["sync", "status"] "Synced" (Value.obj status) then 1 else 0)
        outOfSync := c.outOfSync +
          (if hasString ["sync", "status"] "OutOfSync" (Value.obj status) then 1 else 0)
        degraded := c.degraded } := by
  rw [hasString_two, hasString_two]
  unfold argoSyncStep
  cases asMap (mapGet status "sync") with
  | none => simp
  | some m =>
    cases h0 : asString (mapGet m "status") with
    | none => simp [h0]
    | some t =>
      by_cases h1 : t = "Synced"
      · subst h1
        simp [h0]
      · by_cases h2 : t = "OutOfSync"
        · subst h2
          simp [h0]
        · simp [h0, h1, h2]

theorem argoHealthStep_eq (status : GoMap Value) (c : ArgoCounts) :
    argoHealthStep status c =
      { synced := c.synced
        outOfSync := c.outOfSync
        degraded := c.degraded +
          (if hasString ["health", "status"] "Degraded" (Value.obj status) then 1 else 0) } := by
  rw [hasString_two]
  unfold argoHealthStep
  cases asMap (mapGet status "health") with
  | none => simp
  | some m =>
    cases h0 : asString (mapGet m "status") with
    | none => simp [h0]
    | some t =>
      by_cases h1 : t = "Degraded"
      · subst h1
        simp [h0]
      · simp [h0, h1]

theorem hasString_status (kvs : GoMap Value) (k1 k2 s : String) :
    hasString ["status", k1, k2] s (Value.obj kvs) =
      match asMap (mapGet kvs "status") with
      | some status => hasString [k1, k2] s (Value.obj status)
      | none => false := by
  cases h1 : mapGet kvs "status" with
  | none => simp [hasString, fieldPath, h1, asMap]
  | some v => cases v <;> simp [hasString, fieldPath, h1, asMap]

theorem argoCountItem_eq (c : ArgoCounts) (item : Value) :
    argoCountItem c item =
      { synced := c.synced +
          (if hasString ["status", "sync", "status"] "Synced" item then 1 else 0)
        outOfSync := c.outOfSync +
          (if hasString ["status", "sync", "status"] "OutOfSync" item then 1 else 0)
        degraded := c.degraded +
          (if hasString ["status", "health", "status"] "Degraded" item then 1 else 0) } := by
  cases item with
  | obj kvs =>
    rw [hasString_status, hasString_status, hasString_status]
    have happ : asMap (some (Value.obj kvs)) = some kvs := rfl
    unfold argoCountItem
    rw [happ]
    cases h0 : asMap (mapGet kvs "status") with
    | none => simp [h0]
    | some status => simp [h0, argoHealthStep_eq, argoSyncStep_eq]
  | _ => simp [argoCountItem, asMap, hasString, fieldPath]

theorem argo_foldl_eq (items : List Value) (c : ArgoCounts) :
    items.foldl argoCountItem c =
      { synced := c.synced + items.countP (hasString ["status", "sync", "status"] "Synced")
        outOfSync := c.outOfSync +
          items.countP (hasString ["status", "sync", "status"] "OutOfSync")
        degraded := c.degraded +
          items.countP (hasString ["status", "health", "status"] "Degraded") } := by
  induction items generalizing c with
  | nil => simp
  | cons x rest ih =>
    rw [List.foldl_cons, ih, argoCountItem_eq]
    simp only [List.countP_cons]
    congr 1 <;> omega

theorem countP_disjoint_le {α : Type} (p q : α → Bool) (xs : List α)
    (h : ∀ x, p x = true → q x = true → False) :
    xs.countP p + xs.countP q ≤ xs.length := by
  induction xs with
  | nil => simp
  | cons x rest ih =>
    simp only [List.countP_cons, List.length_cons]
    have := h x
    by_cases hp : p x = true <;> by_cases hq : q x = true <;> simp_all <;> omega

theorem hasString_disjoint (path : List String) (s t : String) (hst : s ≠ t) (item : Value)
    (h1 : hasString path s item = true) (h2 : hasString path t item = true) : False := by
  unfold hasString at h1 h2
  cases hf : fieldPath item path with
  | none => simp [hf] at h1
  | some v =>
    cases v <;> simp [hf] at h1 h2
    exact hst (h1.symm.trans h2)

theorem argoDetails_items (body : Option Json) (m : GoMap Value) (items : List Value)
    (hb : unmarshalMap body = some m)
    (hi : mapGet m "items" = some (Value.arr items)) :
    argoDetails body =
      [("total_apps", Value.int items.length),
        ("synced", Value.int (items.countP (hasString ["status", "sync", "status"] "Synced"))),
        ("out_of_sync",
          Value.int (items.countP (hasString ["status", "sync", "status"] "OutOfSync"))),
        ("degraded",
          Value.int (items.countP (hasString ["status", "health", "status"] "Degraded")))] := by
  simp [argoDetails, hb, hi, asList, argo_foldl_eq, mapSet]

/-- C8, as the code has it.  For a `checkArgoHealth` call with a non-empty token whose
applications request is issued (`http.NewRequest` accepts the URL) and answered with
status 200 and a body that `json.Unmarshal` decodes without error (a JSON object in which
every number fits a `float64`) with an `items` array, the record written is healthy and
its details are exactly `{total_apps, synced, out_of_sync, degraded}`: the length of
`items`, the numbers of items whose `status.sync.status` is the string "Synced", resp.
"OutOfSync", and the number of items whose `status.health.status` is "Degraded".  Hence
`synced + out_of_sync ≤ total_apps` and `degraded ≤ total_apps`. -/
theorem argo_application_counts (env : Env) (config : Config) (st : Run) (resp : Response)
    (m : GoMap Value) (items : List Value)
    (ht : config.ArgoToken ≠ "")
    (hu : env.urlParses (config.ArgoURL ++ "/api/v1/applications") = true)
    (hr : env.http st.trace (argoRequest config) = HttpResult.ok resp)
    (hc : resp.StatusCode = 200)
    (hb : unmarshalMap resp.Body = some m)
    (hi : mapGet m "items" = some (Value.arr items)) :
    (∃ st', checkArgoHealth env config st = some st' ∧
      Wrote st st' [argoRequest config] "argocd" "infrastructure" true "Connected to ArgoCD"
        (some [("total_apps", Value.int items.length),
          ("synced",
            Value.int (items.countP (hasString ["status", "sync", "status"] "Synced"))),
          ("out_of_sync",
            Value.int (items.countP (hasString ["status", "sync", "status"] "OutOfSync"))),
          ("degraded",
            Value.int (items.countP (hasString ["status", "health", "status"] "Degraded")))])) ∧
    items.countP (hasString ["status", "sync", "status"] "Synced") +
      items.countP (hasString ["status", "sync", "status"] "OutOfSync") ≤ items.length ∧
    items.countP (hasString ["status", "health", "status"] "Degraded") ≤ items.length := by
  refine ⟨?_, ?_, List.countP_le_length _⟩
  · simp only [argoRequest] at hr
    simp only [checkArgoHealth, doRequest, ht, if_false, hu, if_true, hr, hc,
      argoDetails_items resp.Body m items hb hi]
    exact ⟨_, rfl, wrote_update env st _ [_] _ _ _ _ _ rfl rfl⟩
  · exact countP_disjoint_le _ _ items
      (hasString_disjoint ["status", "sync", "status"] "Synced" "OutOfSync" (by decide))

/-- Witness of C8: the scenario of the specification, three applications with sync
statuses Synced, Synced, OutOfSync and one Degraded health. -/
theorem argo_application_counts_witness :
    (∃ st', checkArgoHealth envArgoScenario (configWithKeys "k") mainInit = some st' ∧
      Wrote mainInit st' [argoRequest (configWithKeys "k")]
        "argocd" "infrastructure" true "Connected to ArgoCD"
        (some [("total_apps", Value.int 3), ("synced", Value.int 2),
          ("out_of_sync", Value.int 1), ("degraded", Value.int 1)])) ∧
    2 + 1 ≤ 3 ∧ 1 ≤ 3 :=
  argo_application_counts envArgoScenario (configWithKeys "k") mainInit
    { StatusCode := 200, Header := fun _ => ""
      Body := some (Json.obj [("items", Json.arr argoScenarioItems)]) }
    [("items", Value.arr argoScenarioValues)] argoScenarioValues
    (by decide) rfl rfl rfl rfl rfl

/-- Counterexample to C8 as stated.  The applications request is answered with status
200 and `{"items": [...], "metadata": 1e400}`, a JSON object with an `items` array of the
scenario's three applications.  The number `1e400` is outside `float64`,
`json.Unmarshal` returns an error, and the record written is healthy with empty details:
no `total_apps`, `synced`, `out_of_sync` or `degraded`. -/
theorem argo_application_counts_counterexample :
    envArgoHugeNumber.http mainInit.trace (argoRequest (configWithKeys "k")) =
      HttpResult.ok
        { StatusCode := 200
          Header := fun _ => ""
          Body := some (Json.obj [("items", Json.arr argoScenarioItems),
            ("metadata", hugeNumber)]) } ∧
    unmarshalMap (some (Json.obj [("items", Json.arr argoScenarioItems),
      ("metadata", hugeNumber)])) = none ∧
    ∃ st', checkArgoHealth envArgoHugeNumber (configWithKeys "k") mainInit = some st' ∧
      Wrote mainInit st' [argoRequest (configWithKeys "k")]
        "argocd" "infrastructure" true "Connected to ArgoCD" (some []) ∧
      ¬ ∃ reqs, Wrote mainInit st' reqs "argocd" "infrastructure" true "Connected to ArgoCD"
        (some [("total_apps", Value.int 3), ("synced", Value.int 2),
          ("out_of_sync", Value.int 1), ("degraded", Value.int 1)]) := by
  refine ⟨rfl, rfl, _, rfl, ⟨_, rfl, rfl⟩, ?_⟩
  rintro ⟨reqs, t, hs, -⟩
  have hd : argoDetails (some (Json.obj [("items", Json.arr argoScenarioItems),
      ("metadata", hugeNumber)])) = [] := rfl
  simp [mapSet, mainInit, updateService, hd] at hs

/-! ## C9: secondary calls -/

theorem checkArrHealth_noKey (env : Env) (name url ty : String) (st : Run) :
    Wrote st (checkArrHealth env name url "" ty st) [] name ty false
      "No API key configured" none := by
  simp only [checkArrHealth, if_true]
  exact wrote_update env st st [] _ _ _ _ _ rfl (by simp)

theorem checkArrHealth_error (env : Env) (name url apiKey ty : String) (st : Run)
    (e : String) (hk : apiKey ≠ "")
    (hr : env.http st.trace (getRequest (url ++ "/api/v3/health?apiKey=" ++ apiKey)) =
      HttpResult.error e) :
    Wrote st (checkArrHealth env name url apiKey ty st)
      [getRequest (url ++ "/api/v3/health?apiKey=" ++ apiKey)] name ty false
      ("Connection error: " ++ e) none := by
  simp only [getRequest] at hr
  simp only [checkArrHealth, httpGet, doRequest, hk, if_false, hr]
  exact wrote_update env st _ [_] _ _ _ _ _ rfl rfl

theorem arrHealthVerdict_get_other (body : Option Json) (k : String)
    (h : k ≠ "health_issues") : mapGet (arrHealthVerdict body []).2.2 k = none := by
  unfold arrHealthVerdict
  split
  · split
    · simp [mapSet, mapGet, Ne.symm h]
    · rfl
  · rfl

theorem arrQueueDetails_malformed (res : HttpResult) (d : GoMap Value)
    (h : ¬ ∃ k, QueueWithRecords res k) : arrQueueDetails res d = d := by
  cases res with
  | error e => rfl
  | ok resp =>
    cases hb : unmarshalMap resp.Body with
    | none => simp [arrQueueDetails, hb]
    | some m =>
      cases hrec : mapGet m "records" with
      | none => simp [arrQueueDetails, hb, hrec, asList]
      | some r =>
        cases r with
        | arr recs => exact absurd ⟨recs.length, resp, m, recs, rfl, hb, hrec, rfl⟩ h
        | _ => simp [arrQueueDetails, hb, hrec, asList]

theorem arrStatusDetails_malformed (res : HttpResult) (d : GoMap Value)
    (h : ¬ ∃ v, StatusWithVersion res v) : arrStatusDetails res d = d := by
  cases res with
  | error e => rfl
  | ok resp =>
    cases hb : unmarshalMap resp.Body with
    | none => simp [arrStatusDetails, hb]
    | some m =>
      cases hver : mapGet m "version" with
      | none => simp [arrStatusDetails, hb, hver, asString]
      | some r =>
        cases r with
        | str v => exact absurd ⟨v, resp, m, rfl, hb, hver⟩ h
        | _ => simp [arrStatusDetails, hb, hver, asString]

theorem arr_details_other (sres qres : HttpResult) (body : Option Json) (k : String)
    (h1 : k ≠ "queue_size") (h2 : k ≠ "version") :
    mapGet (arrStatusDetails sres (arrQueueDetails qres (arrHealthVerdict body []).2.2)) k =
      mapGet (arrHealthVerdict body []).2.2 k := by
  rw [arrStatusDetails_get_other _ _ _ h2, arrQueueDetails_get_other _ _ _ h1]

theorem arr_details_queue (sres qres : HttpResult) (body : Option Json) :
    mapGet (arrStatusDetails sres (arrQueueDetails qres (arrHealthVerdict body []).2.2))
        "queue_size" =
      mapGet (arrQueueDetails qres (arrHealthVerdict body []).2.2) "queue_size" := by
  rw [arrStatusDetails_get_other _ _ _ (by decide)]

theorem arr_details_version (sres qres : HttpResult) (body : Option Json) :
    mapGet (arrStatusDetails sres (arrQueueDetails qres (arrHealthVerdict body []).2.2))
        "version" =
      mapGet (arrStatusDetails sres []) "version" := by
  by_cases h : ∃ v, StatusWithVersion sres v
  · obtain ⟨v, hv⟩ := h
    rw [arrStatusDetails_version _ _ v hv, arrStatusDetails_version _ _ v hv,
      mapGet_mapSet_self, mapGet_mapSet_self]
  · rw [arrStatusDetails_malformed _ _ h, arrStatusDetails_malformed _ _ h,
      arrQueueDetails_get_other _ _ _ (by decide), arrHealthVerdict_get_other _ _ (by decide)]
    rfl

theorem checkBazarrHealth_noKey (env : Env) (config : Config) (st : Run)
    (hk : config.BazarrAPIKey = "") :
    Wrote st (checkBazarrHealth env config st) [] "bazarr" "arr-stack" false
      "No API key configured" none := by
  simp only [checkBazarrHealth, hk, if_true]
  exact wrote_update env st st [] _ _ _ _ _ rfl (by simp)

theorem checkBazarrHealth_error (env : Env) (config : Config) (st : Run) (e : String)
    (hk : config.BazarrAPIKey ≠ "")
    (hr : env.http st.trace (getRequest (config.BazarrURL ++ "/api/system/health?apikey=" ++
      config.BazarrAPIKey)) = HttpResult.error e) :
    Wrote st (checkBazarrHealth env config st)
      [getRequest (config.BazarrURL ++ "/api/system/health?apikey=" ++ config.BazarrAPIKey)]
      "bazarr" "arr-stack" false ("Connection error: " ++ e) none := by
  simp only [getRequest] at hr
  simp only [checkBazarrHealth, httpGet, doRequest, hk, if_false, hr]
  exact wrote_update env st _ [_] _ _ _ _ _ rfl rfl

theorem checkBazarrHealth_other (env : Env) (config : Config) (st : Run) (resp : Response)
    (hk : config.BazarrAPIKey ≠ "")
    (hr : env.http st.trace (getRequest (config.BazarrURL ++ "/api/system/health?apikey=" ++
      config.BazarrAPIKey)) = HttpResult.ok resp)
    (hc : resp.StatusCode ≠ 200) :
    Wrote st (checkBazarrHealth env config st)
      [getRequest (config.BazarrURL ++ "/api/system/health?apikey=" ++ config.BazarrAPIKey)]
      "bazarr" "arr-stack" false ("HTTP " ++ toString resp.StatusCode) none := by
  simp only [getRequest] at hr
  simp only [checkBazarrHealth, httpGet, doRequest, hk, if_false, hr, hc]
  exact wrote_update env st _ [_] _ _ _ _ _ rfl rfl

theorem checkBazarrHealth_ok (env : Env) (config : Config) (st : Run) (resp : Response)
    (hk : config.BazarrAPIKey ≠ "")
    (hr : env.http st.trace (getRequest (config.BazarrURL ++ "/api/system/health?apikey=" ++
      config.BazarrAPIKey)) = HttpResult.ok resp)
    (hc : resp.StatusCode = 200) :
    Wrote st (checkBazarrHealth env config st) (bazarrRequests config)
      "bazarr" "arr-stack" true "Service is running"
      (some (bazarrStatusDetails (bazarrStatusResult env config st) [])) := by
  simp only [getRequest] at hr
  simp only [checkBazarrHealth, httpGet, doRequest, hk, if_false, hr, hc, if_true]
  have h := wrote_update env st
    { d := st.d
      trace := st.trace ++ [Event.request (getRequest
          (config.BazarrURL ++ "/api/system/health?apikey=" ++ config.BazarrAPIKey))]
        ++ [Event.request (getRequest
          (config.BazarrURL ++ "/api/system/status?apikey=" ++ config.BazarrAPIKey))] }
    (bazarrRequests config) "bazarr" "arr-stack" true "Service is running"
    (some (bazarrStatusDetails (bazarrStatusResult env config st) [])) rfl
    (by simp [bazarrRequests])
  simpa [bazarrStatusResult, getRequest] using h

theorem bazarrStatusDetails_get_other (res : HttpResult) (d : GoMap Value) (k : String)
    (h : k ≠ "version") : mapGet (bazarrStatusDetails res d) k = mapGet d k := by
  unfold bazarrStatusDetails
  split
  · split
    · split
      · split
        · exact mapGet_mapSet_ne _ _ _ _ h
        · rfl
      · rfl
    · rfl
  · rfl

theorem bazarrStatusDetails_malformed (res : HttpResult) (d : GoMap Value)
    (h : ¬ ∃ v, BazarrStatusWithVersion res v) : bazarrStatusDetails res d = d := by
  cases res with
  | error e => rfl
  | ok resp =>
    cases hb : unmarshalMap resp.Body with
    | none => simp [bazarrStatusDetails, hb]
    | some m =>
      cases hdata : mapGet m "data" with
      | none => simp [bazarrStatusDetails, hb, hdata, asMap]
      | some r =>
        cases r with
        | obj data =>
          cases hver : mapGet data "bazarr_version" with
          | none => simp [bazarrStatusDetails, hb, hdata, asMap, hver, asString]
          | some w =>
            cases w with
            | str v => exact absurd ⟨v, resp, m, data, rfl, hb, hdata, hver⟩ h
            | _ => simp [bazarrStatusDetails, hb, hdata, asMap, hver, asString]
        | _ => simp [bazarrStatusDetails, hb, hdata, asMap]

/-- C9. Secondary calls never change the verdict.  Two runs of `checkArrHealth` (resp.
`checkBazarrHealth`) from the same state with the same arguments, in two environments that
answer the primary health request alike and are otherwise arbitrary, issue the same
requests and write records with the same healthy flag and the same message; their details
agree on every key other than `queue_size` and `version`, on `queue_size` when the queue
answers agree and on `version` when the status answers agree.  A queue answer that
`json.Unmarshal` does not decode to a map with a `records` array (transport error, bytes
that are not JSON, a number outside `float64`, a wrong field type) leaves `queue_size`
out, and a status answer that does not decode to a map with a string `version` (for
Bazarr: with a string `data.bazarr_version`) leaves `version` out. -/
theorem secondary_calls_keep_verdict (env1 env2 : Env) (st : Run) :
    (∀ name url apiKey serviceType : String,
      env1.http st.trace (getRequest (url ++ "/api/v3/health?apiKey=" ++ apiKey)) =
        env2.http st.trace (getRequest (url ++ "/api/v3/health?apiKey=" ++ apiKey)) →
      ∃ reqs healthy message det1 det2,
        Wrote st (checkArrHealth env1 name url apiKey serviceType st) reqs name serviceType
          healthy message det1 ∧
        Wrote st (checkArrHealth env2 name url apiKey serviceType st) reqs name serviceType
          healthy message det2 ∧
        (∀ k, k ≠ "queue_size" → k ≠ "version" → detailsGet det1 k = detailsGet det2 k) ∧
        (arrQueueResult env1 url apiKey st = arrQueueResult env2 url apiKey st →
          detailsGet det1 "queue_size" = detailsGet det2 "queue_size") ∧
        (arrStatusResult env1 url apiKey st = arrStatusResult env2 url apiKey st →
          detailsGet det1 "version" = detailsGet det2 "version") ∧
        ((¬ ∃ k, QueueWithRecords (arrQueueResult env2 url apiKey st) k) →
          detailsGet det2 "queue_size" = none) ∧
        ((¬ ∃ v, StatusWithVersion (arrStatusResult env2 url apiKey st) v) →
          detailsGet det2 "version" = none)) ∧
    (∀ config : Config,
      env1.http st.trace (getRequest (config.BazarrURL ++ "/api/system/health?apikey=" ++
          config.BazarrAPIKey)) =
        env2.http st.trace (getRequest (config.BazarrURL ++ "/api/system/health?apikey=" ++
          config.BazarrAPIKey)) →
      ∃ reqs healthy message det1 det2,
        Wrote st (checkBazarrHealth env1 config st) reqs "bazarr" "arr-stack"
          healthy message det1 ∧
        Wrote st (checkBazarrHealth env2 config st) reqs "bazarr" "arr-stack"
          healthy message det2 ∧
        (∀ k, k ≠ "version" → detailsGet det1 k = detailsGet det2 k) ∧
        (bazarrStatusResult env1 config st = bazarrStatusResult env2 config st →
          detailsGet det1 "version" = detailsGet det2 "version") ∧
        ((¬ ∃ v, BazarrStatusWithVersion (bazarrStatusResult env2 config st) v) →
          detailsGet det2 "version" = none)) := by
  refine ⟨?_, ?_⟩
  · intro name url apiKey ty hagree
    by_cases hk : apiKey = ""
    · subst hk
      exact ⟨_, _, _, _, _, checkArrHealth_noKey env1 name url ty st,
        checkArrHealth_noKey env2 name url ty st, fun _ _ _ => rfl, fun _ => rfl,
        fun _ => rfl, fun _ => rfl, fun _ => rfl⟩
    · cases hr : env2.http st.trace
          (getRequest (url ++ "/api/v3/health?apiKey=" ++ apiKey)) with
      | error e =>
        exact ⟨_, _, _, _, _,
          checkArrHealth_error env1 name url apiKey ty st e hk (hagree.trans hr),
          checkArrHealth_error env2 name url apiKey ty st e hk hr, fun _ _ _ => rfl,
          fun _ => rfl, fun _ => rfl, fun _ => rfl, fun _ => rfl⟩
      | ok resp =>
        refine ⟨_, _, _, _, _,
          checkArrHealth_ok env1 name url apiKey ty st resp hk (hagree.trans hr),
          checkArrHealth_ok env2 name url apiKey ty st resp hk hr, ?_, ?_, ?_, ?_, ?_⟩
        · intro k h1 h2
          simp only [detailsGet]
          rw [arr_details_other _ _ _ _ h1 h2, arr_details_other _ _ _ _ h1 h2]
        · intro hq
          simp only [detailsGet]
          rw [arr_details_queue, arr_details_queue, hq]
        · intro hs
          simp only [detailsGet]
          rw [arr_details_version, arr_details_version, hs]
        · intro hq
          simp only [detailsGet]
          rw [arr_details_queue, arrQueueDetails_malformed _ _ hq,
            arrHealthVerdict_get_other _ _ (by decide)]
        · intro hs
          simp only [detailsGet]
          rw [arr_details_version, arrStatusDetails_malformed _ _ hs]
          rfl
  · intro config hagree
    by_cases hk : config.BazarrAPIKey = ""
    · exact ⟨_, _, _, _, _, checkBazarrHealth_noKey env1 config st hk,
        checkBazarrHealth_noKey env2 config st hk, fun _ _ => rfl, fun _ => rfl,
        fun _ => rfl⟩
    · cases hr : env2.http st.trace (getRequest (config.BazarrURL ++
          "/api/system/health?apikey=" ++ config.BazarrAPIKey)) with
      | error e =>
        exact ⟨_, _, _, _, _,
          checkBazarrHealth_error env1 config st e hk (hagree.trans hr),
          checkBazarrHealth_error env2 config st e hk hr, fun _ _ => rfl, fun _ => rfl,
          fun _ => rfl⟩
      | ok resp =>
        by_cases hc : resp.StatusCode = 200
        · refine ⟨_, _, _, _, _,
            checkBazarrHealth_ok env1 config st resp hk (hagree.trans hr) hc,
            checkBazarrHealth_ok env2 config st resp hk hr hc, ?_, ?_, ?_⟩
          · intro k h1
            simp only [detailsGet]
            rw [bazarrStatusDetails_get_other _ _ _ h1, bazarrStatusDetails_get_other _ _ _ h1]
          · intro hs
            rw [hs]
          · intro hs
            simp only [detailsGet]
            rw [bazarrStatusDetails_malformed _ _ hs]
            rfl
        · exact ⟨_, _, _, _, _,
            checkBazarrHealth_other env1 config st resp hk (hagree.trans hr) hc,
            checkBazarrHealth_other env2 config st resp hk hr hc, fun _ _ => rfl,
            fun _ => rfl, fun _ => rfl⟩

/-- Witness of C9: radarr and Bazarr probed against an upstream whose secondary answers
are well formed and against one whose secondary calls all time out; both answer the
primary request with 200 and `[]`. -/
theorem secondary_calls_keep_verdict_witness :
    (∃ reqs healthy message det1 det2,
      Wrote mainInit
        (checkArrHealth envArrScenario "radarr" "http://radarr.arr-stack:7878" "k" "arr-stack"
          mainInit) reqs "radarr" "arr-stack" healthy message det1 ∧
      Wrote mainInit
        (checkArrHealth envSecondaryDown "radarr" "http://radarr.arr-stack:7878" "k"
          "arr-stack" mainInit) reqs "radarr" "arr-stack" healthy message det2 ∧
      (∀ k, k ≠ "queue_size" → k ≠ "version" → detailsGet det1 k = detailsGet det2 k) ∧
      (arrQueueResult envArrScenario "http://radarr.arr-stack:7878" "k" mainInit =
          arrQueueResult envSecondaryDown "http://radarr.arr-stack:7878" "k" mainInit →
        detailsGet det1 "queue_size" = detailsGet det2 "queue_size") ∧
      (arrStatusResult envArrScenario "http://radarr.arr-stack:7878" "k" mainInit =
          arrStatusResult envSecondaryDown "http://radarr.arr-stack:7878" "k" mainInit →
        detailsGet det1 "version" = detailsGet det2 "version") ∧
      ((¬ ∃ k, QueueWithRecords
          (arrQueueResult envSecondaryDown "http://radarr.arr-stack:7878" "k" mainInit) k) →
        detailsGet det2 "queue_size" = none) ∧
      ((¬ ∃ v, StatusWithVersion
          (arrStatusResult envSecondaryDown "http://radarr.arr-stack:7878" "k" mainInit) v) →
        detailsGet det2 "version" = none)) ∧
    (∃ reqs healthy message det1 det2,
      Wrote mainInit (checkBazarrHealth envArrScenario (configWithKeys "k") mainInit)
        reqs "bazarr" "arr-stack" healthy message det1 ∧
      Wrote mainInit (checkBazarrHealth envSecondaryDown (configWithKeys "k") mainInit)
        reqs "bazarr" "arr-stack" healthy message det2 ∧
      (∀ k, k ≠ "version" → detailsGet det1 k = detailsGet det2 k) ∧
      (bazarrStatusResult envArrScenario (configWithKeys "k") mainInit =
          bazarrStatusResult envSecondaryDown (configWithKeys "k") mainInit →
        detailsGet det1 "version" = detailsGet det2 "version") ∧
      ((¬ ∃ v, BazarrStatusWithVersion
          (bazarrStatusResult envSecondaryDown (configWithKeys "k") mainInit) v) →
        detailsGet det2 "version" = none)) :=
  ⟨(secondary_calls_keep_verdict envArrScenario envSecondaryDown mainInit).1
      "radarr" "http://radarr.arr-stack:7878" "k" "arr-stack" rfl,
    (secondary_calls_keep_verdict envArrScenario envSecondaryDown mainInit).2
      (configWithKeys "k") rfl⟩

/-! ## C10: one pass of the collector loop -/

theorem updateNames_append (xs ys : List Event) :
    updateNames (xs ++ ys) = updateNames xs ++ updateNames ys := by
  induction xs with
  | nil => rfl
  | cons e rest ih =>
    cases e with
    | request r => simpa [updateNames] using ih
    | update s => simpa [updateNames] using ih

theorem updateNames_requests (reqs : List Request) :
    updateNames (reqs.map Event.request) = [] := by
  induction reqs with
  | nil => rfl
  | cons r rest ih => simpa [updateNames] using ih

theorem ran_step (st st1 st2 : Run) (names : List String) (reqs : List Request)
    (name ty : String) (h : Bool) (msg : String) (det : Details)
    (hran : ∃ evs, st1.trace = st.trace ++ evs ∧ updateNames evs = names)
    (hw : Wrote st1 st2 reqs name ty h msg det) :
    ∃ evs, st2.trace = st.trace ++ evs ∧ updateNames evs = names ++ [name] := by
  obtain ⟨evs, ht, hn⟩ := hran
  obtain ⟨t, -, ht2⟩ := hw
  refine ⟨evs ++ (reqs.map Event.request ++ [Event.update
    { Name := name, ServiceType := ty, Healthy := h, LastChecked := t, Message := msg,
      Details := det }]), ?_, ?_⟩
  · rw [ht2, ht]
    simp
  · rw [updateNames_append, updateNames_append, updateNames_requests, hn]
    rfl

theorem wrote_keys (st st' : Run) (reqs : List Request) (name ty : String) (h : Bool)
    (msg : String) (det : Details) (hw : Wrote st st' reqs name ty h msg det) :
    st'.d.Services.map Prod.fst =
      if name ∈ st.d.Services.map Prod.fst then st.d.Services.map Prod.fst
      else st.d.Services.map Prod.fst ++ [name] := by
  obtain ⟨t, hs, -⟩ := hw
  rw [hs]
  split
  · next hm => exact mapSet_keys_of_mem _ _ _ hm
  · next hm => exact mapSet_keys_of_not_mem _ _ _ hm

theorem ran_nil (st : Run) : Ran st st [] :=
  ⟨⟨[], by simp, rfl⟩, id, rfl⟩

theorem ran_snoc (st st1 st2 : Run) (names : List String) (name : String)
    (hran : Ran st st1 names)
    (hw : ∃ reqs h msg det ty, Wrote st1 st2 reqs name ty h msg det) :
    Ran st st2 (names ++ [name]) := by
  obtain ⟨reqs, h, msg, det, ty, hw⟩ := hw
  refine ⟨ran_step st st1 st2 names reqs name ty h msg det hran.1 hw, ?_, ?_⟩
  · intro hi
    exact wrote_storeInv st1 st2 reqs name ty h msg det hw (hran.2.1 hi)
  · rw [wrote_keys st1 st2 reqs name ty h msg det hw, hran.2.2, List.foldl_append]
    rfl

theorem checkArgoHealth_isSome (env : Env) (config : Config) (st : Run)
    (hargo : config.ArgoToken = "" ∨
      env.urlParses (config.ArgoURL ++ "/api/v1/applications") = true) :
    ∃ st', checkArgoHealth env config st = some st' := by
  by_cases ht : config.ArgoToken = ""
  · cases hr : env.http st.trace (getRequest (config.ArgoURL ++ "/api/v1/session")) with
    | error e =>
      simp only [getRequest] at hr
      simp only [checkArgoHealth, httpGet, doRequest, ht, if_true, hr]
      exact ⟨_, rfl⟩
    | ok resp =>
      simp only [getRequest] at hr
      simp only [checkArgoHealth, httpGet, doRequest, ht, if_true, hr]
      split <;> exact ⟨_, rfl⟩
  · have hu : env.urlParses (config.ArgoURL ++ "/api/v1/applications") = true := by
      rcases hargo with h | h
      · exact absurd h ht
      · exact h
    cases hr : env.http st.trace (argoRequest config) with
    | error e =>
      simp only [argoRequest] at hr
      simp only [checkArgoHealth, doRequest, ht, if_false, hu, if_true, hr]
      exact ⟨_, rfl⟩
    | ok resp =>
      simp only [argoRequest] at hr
      simp only [checkArgoHealth, doRequest, ht, if_false, hu, if_true, hr]
      split <;> exact ⟨_, rfl⟩

theorem collectMetricsPass_ran (env : Env) (config : Config) (st : Run)
    (hargo : config.ArgoToken = "" ∨
      env.urlParses (config.ArgoURL ++ "/api/v1/applications") = true) :
    ∃ st', collectMetricsPass env config st = some st' ∧ Ran st st' (passNames config) := by
  have r0 := ran_nil st
  have r1 := ran_snoc st _ _ _ "plex" r0
    (by
      obtain ⟨q, a, b, c, w⟩ := checkPlexHealth_wrote env config st
      exact ⟨q, a, b, c, _, w⟩)
  have r2 := ran_snoc st _ _ _ "tautulli" r1
    (by
      obtain ⟨q, a, b, c, w⟩ := checkTautulliHealth_wrote env config _
      exact ⟨q, a, b, c, _, w⟩)
  have r3 := ran_snoc st _ _ _ "radarr" r2
    (by
      obtain ⟨q, a, b, c, w⟩ :=
        checkArrHealth_wrote env "radarr" config.RadarrURL config.RadarrAPIKey "arr-stack" _
      exact ⟨q, a, b, c, _, w⟩)
  have r4 := ran_snoc st _ _ _ "sonarr" r3
    (by
      obtain ⟨q, a, b, c, w⟩ :=
        checkArrHealth_wrote env "sonarr" config.SonarrURL config.SonarrAPIKey "arr-stack" _
      exact ⟨q, a, b, c, _, w⟩)
  obtain ⟨st9, hst9, r9⟩ : ∃ st9,
      collectMetricsPass env config st = checkArgoHealth env config st9 ∧
      Ran st st9 (["plex", "tautulli", "radarr", "sonarr"] ++
        (if config.ReadarrAPIKey ≠ "" then ["readarr"] else []) ++
        ["lidarr", "bazarr", "jackett", "transmission"]) := by
    by_cases hk : config.ReadarrAPIKey = ""
    · have r6 := ran_snoc st _ _ _ "lidarr" r4
        (by
          obtain ⟨q, a, b, c, w⟩ :=
            checkArrHealth_wrote env "lidarr" config.LidarrURL config.LidarrAPIKey "arr-stack" _
          exact ⟨q, a, b, c, _, w⟩)
      have r7 := ran_snoc st _ _ _ "bazarr" r6
        (by
          obtain ⟨q, a, b, c, w⟩ := checkBazarrHealth_wrote env config _
          exact ⟨q, a, b, c, _, w⟩)
      have r8 := ran_snoc st _ _ _ "jackett" r7
        (by
          obtain ⟨q, a, b, c, w⟩ := checkJackettHealth_wrote env config _
          exact ⟨q, a, b, c, _, w⟩)
      have r9 := ran_snoc st _ _ _ "transmission" r8
        (by
          obtain ⟨q, a, b, c, w⟩ := checkTransmissionHealth_wrote env config _
          exact ⟨q, a, b, c, _, w⟩)
      have hn : ([] : List String) ++ ["plex"] ++ ["tautulli"] ++ ["radarr"] ++ ["sonarr"] ++
          ["lidarr"] ++ ["bazarr"] ++ ["jackett"] ++ ["transmission"] =
          ["plex", "tautulli", "radarr", "sonarr"] ++
          (if config.ReadarrAPIKey ≠ "" then ["readarr"] else []) ++
          ["lidarr", "bazarr", "jackett", "transmission"] := by
        simp [hk]
      rw [hn] at r9
      exact ⟨_, by simp [collectMetricsPass, hk], r9⟩
    · have r5 := ran_snoc st _ _ _ "readarr" r4
        (by
          obtain ⟨q, a, b, c, w⟩ :=
            checkArrHealth_wrote env "readarr" config.ReadarrURL config.ReadarrAPIKey
              "arr-stack" _
          exact ⟨q, a, b, c, _, w⟩)
      have r6 := ran_snoc st _ _ _ "lidarr" r5
        (by
          obtain ⟨q, a, b, c, w⟩ :=
            checkArrHealth_wrote env "lidarr" config.LidarrURL config.LidarrAPIKey "arr-stack" _
          exact ⟨q, a, b, c, _, w⟩)
      have r7 := ran_snoc st _ _ _ "bazarr" r6
        (by
          obtain ⟨q, a, b, c, w⟩ := checkBazarrHealth_wrote env config _
          exact ⟨q, a, b, c, _, w⟩)
      have r8 := ran_snoc st _ _ _ "jackett" r7
        (by
          obtain ⟨q, a, b, c, w⟩ := checkJackettHealth_wrote env config _
          exact ⟨q, a, b, c, _, w⟩)
      have r9 := ran_snoc st _ _ _ "transmission" r8
        (by
          obtain ⟨q, a, b, c, w⟩ := checkTransmissionHealth_wrote env config _
          exact ⟨q, a, b, c, _, w⟩)
      have hn : ([] : List String) ++ ["plex"] ++ ["tautulli"] ++ ["radarr"] ++ ["sonarr"] ++
          ["readarr"] ++ ["lidarr"] ++ ["bazarr"] ++ ["jackett"] ++ ["transmission"] =
          ["plex", "tautulli", "radarr", "sonarr"] ++
          (if config.ReadarrAPIKey ≠ "" then ["readarr"] else []) ++
          ["lidarr", "bazarr", "jackett", "transmission"] := by
        simp [hk]
      rw [hn] at r9
      exact ⟨_, by simp [collectMetricsPass, hk], r9⟩
  obtain ⟨st', hst'⟩ := checkArgoHealth_isSome env config st9 hargo
  refine ⟨st', hst9.trans hst', ?_⟩
  have r10 := ran_snoc st st9 st' _ "argocd" r9
    (by
      obtain ⟨q, a, b, c, w⟩ := checkArgoHealth_wrote env config st9 st' hst'
      exact ⟨q, a, b, c, _, w⟩)
  simpa [passNames] using r10

theorem passNames_keys (config : Config) :
    (passNames config).foldl insertKey [] = passNames config := by
  by_cases hk : config.ReadarrAPIKey = ""
  · simp only [passNames, hk, ne_eq, not_true_eq_false, if_false]
    decide
  · simp only [passNames, hk, ne_eq, not_false_eq_true, if_true]
    decide

theorem wrote_frame (st st' : Run) (reqs : List Request) (name ty : String) (h : Bool)
    (msg : String) (det : Details) (hw : Wrote st st' reqs name ty h msg det) :
    (∀ k, k ≠ name → mapGet st'.d.Services k = mapGet st.d.Services k) ∧
    (∃ evs, st'.trace = st.trace ++ evs ∧ updateNames evs = [name]) := by
  obtain ⟨t, hs, ht⟩ := hw
  refine ⟨?_, ?_⟩
  · intro k hk
    rw [hs]
    exact mapGet_mapSet_ne _ _ _ _ hk
  · refine ⟨reqs.map Event.request ++ [Event.update
      { Name := name, ServiceType := ty, Healthy := h, LastChecked := t, Message := msg,
        Details := det }], ?_, ?_⟩
    · rw [ht]
      simp
    · rw [updateNames_append, updateNames_requests]
      rfl

theorem keeps_refl (s : Run) : Keeps s s [] :=
  fun _ _ => rfl

theorem keeps_cons (a b c : Run) (name : String) (names : List String)
    (hw : ∃ reqs h msg det ty, Wrote a b reqs name ty h msg det) (hk : Keeps b c names) :
    Keeps a c (name :: names) := by
  obtain ⟨reqs, h, msg, det, ty, hw⟩ := hw
  intro k hmem
  simp only [List.mem_cons, not_or] at hmem
  rw [hk k hmem.2]
  exact (wrote_frame a b reqs name ty h msg det hw).1 k hmem.1

theorem keeps_weaken (a c : Run) (name : String) (names : List String)
    (hk : Keeps a c names) : Keeps a c (name :: names) :=
  fun k hmem => hk k (fun hin => hmem (List.mem_cons_of_mem _ hin))

theorem outcome_of (a b c : Run) (name ty : String) (names : List String)
    (hw : ∃ reqs h msg det, Wrote a b reqs name ty h msg det) (hk : Keeps b c names)
    (hn : name ∉ names) : Outcome a b c name ty := by
  obtain ⟨reqs, h, msg, det, t, hs, ht⟩ := hw
  refine ⟨reqs, h, msg, det, t, ⟨hs, ht⟩, ?_⟩
  rw [hk name hn, hs]
  exact mapGet_mapSet_self _ _ _

/-- C10, as the code has it.  For every environment and every configuration for which
`checkArgoHealth` can build its request (no ArgoCD token, or an ArgoCD URL that
`http.NewRequest` accepts), one pass of the collector loop body completes and is the
chain of probe invocations plex, tautulli, radarr, sonarr, readarr, lidarr, bazarr,
jackett, transmission, argocd, each invoked once on the state left by the one before,
where readarr is probed only if `ReadarrAPIKey` is non-empty.  Each invocation ends in one
write under the probe's name and type tag, and the record it wrote is the entry under that
name in the store after the pass.  The writes of the pass are, in this order, those of
the names probed, and after a pass started on the empty store the store holds exactly one
record for each of these names, filed under its name: ten names with a Readarr key, nine
(no readarr) without. -/
theorem collection_cycle (env : Env) (config : Config) (st : Run)
    (hargo : config.ArgoToken = "" ∨
      env.urlParses (config.ArgoURL ++ "/api/v1/applications") = true) :
    ∃ s1 s2 s3 s4 s5 s6 s7 s8 s9 st',
      s1 = checkPlexHealth env config st ∧
      s2 = checkTautulliHealth env config s1 ∧
      s3 = checkArrHealth env "radarr" config.RadarrURL config.RadarrAPIKey "arr-stack" s2 ∧
      s4 = checkArrHealth env "sonarr" config.SonarrURL config.SonarrAPIKey "arr-stack" s3 ∧
      s5 = (if config.ReadarrAPIKey ≠ "" then
        checkArrHealth env "readarr" config.ReadarrURL config.ReadarrAPIKey "arr-stack" s4
        else s4) ∧
      s6 = checkArrHealth env "lidarr" config.LidarrURL config.LidarrAPIKey "arr-stack" s5 ∧
      s7 = checkBazarrHealth env config s6 ∧
      s8 = checkJackettHealth env config s7 ∧
      s9 = checkTransmissionHealth env config s8 ∧
      checkArgoHealth env config s9 = some st' ∧
      collectMetricsPass env config st = some st' ∧
      Outcome st s1 st' "plex" "media" ∧
      Outcome s1 s2 st' "tautulli" "media" ∧
      Outcome s2 s3 st' "radarr" "arr-stack" ∧
      Outcome s3 s4 st' "sonarr" "arr-stack" ∧
      (config.ReadarrAPIKey ≠ "" → Outcome s4 s5 st' "readarr" "arr-stack") ∧
      Outcome s5 s6 st' "lidarr" "arr-stack" ∧
      Outcome s6 s7 st' "bazarr" "arr-stack" ∧
      Outcome s7 s8 st' "jackett" "download" ∧
      Outcome s8 s9 st' "transmission" "download" ∧
      Outcome s9 st' st' "argocd" "infrastructure" ∧
      (∃ evs, st'.trace = st.trace ++ evs ∧ updateNames evs = passNames config) ∧
      (config.ReadarrAPIKey ≠ "" → passNames config = allNames) ∧
      (config.ReadarrAPIKey = "" →
        passNames config = ["plex", "tautulli", "radarr", "sonarr", "lidarr", "bazarr",
          "jackett", "transmission", "argocd"]) ∧
      (st.d.Services = [] →
        st'.d.Services.map Prod.fst = passNames config ∧
        ∀ n ∈ passNames config, ∃ r, mapGet st'.d.Services n = some r ∧ r.Name = n) := by
  obtain ⟨s1, hs1⟩ : ∃ s, s = checkPlexHealth env config st := ⟨_, rfl⟩
  obtain ⟨s2, hs2⟩ : ∃ s, s = checkTautulliHealth env config s1 := ⟨_, rfl⟩
  obtain ⟨s3, hs3⟩ : ∃ s, s = checkArrHealth env "radarr" config.RadarrURL
    config.RadarrAPIKey "arr-stack" s2 := ⟨_, rfl⟩
  obtain ⟨s4, hs4⟩ : ∃ s, s = checkArrHealth env "sonarr" config.SonarrURL
    config.SonarrAPIKey "arr-stack" s3 := ⟨_, rfl⟩
  obtain ⟨s5, hs5⟩ : ∃ s, s = (if config.ReadarrAPIKey ≠ "" then
    checkArrHealth env "readarr" config.ReadarrURL config.ReadarrAPIKey "arr-stack" s4
    else s4) := ⟨_, rfl⟩
  obtain ⟨s6, hs6⟩ : ∃ s, s = checkArrHealth env "lidarr" config.LidarrURL
    config.LidarrAPIKey "arr-stack" s5 := ⟨_, rfl⟩
  obtain ⟨s7, hs7⟩ : ∃ s, s = checkBazarrHealth env config s6 := ⟨_, rfl⟩
  obtain ⟨s8, hs8⟩ : ∃ s, s = checkJackettHealth env config s7 := ⟨_, rfl⟩
  obtain ⟨s9, hs9⟩ : ∃ s, s = checkTransmissionHealth env config s8 := ⟨_, rfl⟩
  obtain ⟨st', hst'⟩ := checkArgoHealth_isSome env config s9 hargo
  have hchain : collectMetricsPass env config st = checkArgoHealth env config s9 := by
    subst hs1 hs2 hs3 hs4 hs5 hs6 hs7 hs8 hs9
    rfl
  have hpass : collectMetricsPass env config st = some st' := hchain.trans hst'
  have w1 : ∃ reqs h msg det, Wrote st s1 reqs "plex" "media" h msg det :=
    hs1 ▸ checkPlexHealth_wrote env config st
  have w2 : ∃ reqs h msg det, Wrote s1 s2 reqs "tautulli" "media" h msg det :=
    hs2 ▸ checkTautulliHealth_wrote env config s1
  have w3 : ∃ reqs h msg det, Wrote s2 s3 reqs "radarr" "arr-stack" h msg det :=
    hs3 ▸ checkArrHealth_wrote env "radarr" _ _ "arr-stack" s2
  have w4 : ∃ reqs h msg det, Wrote s3 s4 reqs "sonarr" "arr-stack" h msg det :=
    hs4 ▸ checkArrHealth_wrote env "sonarr" _ _ "arr-stack" s3
  have w5 : config.ReadarrAPIKey ≠ "" →
      ∃ reqs h msg det, Wrote s4 s5 reqs "readarr" "arr-stack" h msg det := by
    intro hk
    rw [if_pos hk] at hs5
    exact hs5 ▸ checkArrHealth_wrote env "readarr" _ _ "arr-stack" s4
  have w6 : ∃ reqs h msg det, Wrote s5 s6 reqs "lidarr" "arr-stack" h msg det :=
    hs6 ▸ checkArrHealth_wrote env "lidarr" _ _ "arr-stack" s5
  have w7 : ∃ reqs h msg det, Wrote s6 s7 reqs "bazarr" "arr-stack" h msg det :=
    hs7 ▸ checkBazarrHealth_wrote env config s6
  have w8 : ∃ reqs h msg det, Wrote s7 s8 reqs "jackett" "download" h msg det :=
    hs8 ▸ checkJackettHealth_wrote env config s7
  have w9 : ∃ reqs h msg det, Wrote s8 s9 reqs "transmission" "download" h msg det :=
    hs9 ▸ checkTransmissionHealth_wrote env config s8
  have w10 : ∃ reqs h msg det, Wrote s9 st' reqs "argocd" "infrastructure" h msg det :=
    checkArgoHealth_wrote env config s9 st' hst'
  have tag : ∀ {a b : Run} {name ty : String},
      (∃ reqs h msg det, Wrote a b reqs name ty h msg det) →
      ∃ reqs h msg det ty, Wrote a b reqs name ty h msg det :=
    fun ⟨q, h, m, d, w⟩ => ⟨q, h, m, d, _, w⟩
  have k10 := keeps_refl st'
  have k9 := keeps_cons s9 st' st' "argocd" _ (tag w10) k10
  have k8 := keeps_cons s8 s9 st' "transmission" _ (tag w9) k9
  have k7 := keeps_cons s7 s8 st' "jackett" _ (tag w8) k8
  have k6 := keeps_cons s6 s7 st' "bazarr" _ (tag w7) k7
  have k5 := keeps_cons s5 s6 st' "lidarr" _ (tag w6) k6
  have k4 : Keeps s4 st' ["readarr", "lidarr", "bazarr", "jackett", "transmission",
      "argocd"] := by
    by_cases hk : config.ReadarrAPIKey ≠ ""
    · exact keeps_cons s4 s5 st' "readarr" _ (tag (w5 hk)) k5
    · rw [if_neg hk] at hs5
      subst hs5
      exact keeps_weaken _ _ _ _ k5
  have k3 := keeps_cons s3 s4 st' "sonarr" _ (tag w4) k4
  have k2 := keeps_cons s2 s3 st' "radarr" _ (tag w3) k3
  have k1 := keeps_cons s1 s2 st' "tautulli" _ (tag w2) k2
  obtain ⟨st'', hpass', htrace, hinv, hkeys⟩ := collectMetricsPass_ran env config st hargo
  have hsame : st'' = st' := Option.some.inj (hpass'.symm.trans hpass)
  subst hsame
  refine ⟨s1, s2, s3, s4, s5, s6, s7, s8, s9, st'', hs1, hs2, hs3, hs4, hs5, hs6, hs7, hs8,
    hs9, hst', hpass, outcome_of _ _ _ _ _ _ w1 k1 (by decide),
    outcome_of _ _ _ _ _ _ w2 k2 (by decide), outcome_of _ _ _ _ _ _ w3 k3 (by decide),
    outcome_of _ _ _ _ _ _ w4 k4 (by decide),
    fun hk => outcome_of _ _ _ _ _ _ (w5 hk) k5 (by decide),
    outcome_of _ _ _ _ _ _ w6 k6 (by decide), outcome_of _ _ _ _ _ _ w7 k7 (by decide),
    outcome_of _ _ _ _ _ _ w8 k8 (by decide), outcome_of _ _ _ _ _ _ w9 k9 (by decide),
    outcome_of _ _ _ _ _ _ w10 k10 (by decide), htrace, ?_, ?_, ?_⟩
  · intro hk
    simp [passNames, hk, allNames]
  · intro hk
    simp [passNames, hk]
  · intro hempty
    have hk' : st''.d.Services.map Prod.fst = passNames config := by
      rw [hkeys, hempty]
      exact passNames_keys config
    refine ⟨hk', ?_⟩
    intro n hn
    rw [← hk'] at hn
    obtain ⟨r, hr⟩ := mapGet_isSome_of_mem _ _ hn
    have hi : StoreInv st''.d.Services := hinv (by rw [hempty]; exact ⟨by simp, by simp⟩)
    exact ⟨r, hr, hi.1 n r (mem_of_mapGet _ _ _ hr)⟩

/-- Witness of C10: a pass with every credential set, against unreachable services. -/
theorem collection_cycle_witness :
    ∃ s1 s2 s3 s4 s5 s6 s7 s8 s9 st',
      s1 = checkPlexHealth envDown (configWithKeys "k") mainInit ∧
      s2 = checkTautulliHealth envDown (configWithKeys "k") s1 ∧
      s3 = checkArrHealth envDown "radarr" "http://radarr.arr-stack:7878" "k" "arr-stack" s2 ∧
      s4 = checkArrHealth envDown "sonarr" "http://sonarr.arr-stack:8989" "k" "arr-stack" s3 ∧
      s5 = (if (configWithKeys "k").ReadarrAPIKey ≠ "" then
        checkArrHealth envDown "readarr" "http://readarr.arr-stack:8787" "k" "arr-stack" s4
        else s4) ∧
      s6 = checkArrHealth envDown "lidarr" "http://lidarr.arr-stack:8686" "k" "arr-stack" s5 ∧
      s7 = checkBazarrHealth envDown (configWithKeys "k") s6 ∧
      s8 = checkJackettHealth envDown (configWithKeys "k") s7 ∧
      s9 = checkTransmissionHealth envDown (configWithKeys "k") s8 ∧
      checkArgoHealth envDown (configWithKeys "k") s9 = some st' ∧
      collectMetricsPass envDown (configWithKeys "k") mainInit = some st' ∧
      Outcome mainInit s1 st' "plex" "media" ∧
      Outcome s1 s2 st' "tautulli" "media" ∧
      Outcome s2 s3 st' "radarr" "arr-stack" ∧
      Outcome s3 s4 st' "sonarr" "arr-stack" ∧
      ((configWithKeys "k").ReadarrAPIKey ≠ "" → Outcome s4 s5 st' "readarr" "arr-stack") ∧
      Outcome s5 s6 st' "lidarr" "arr-stack" ∧
      Outcome s6 s7 st' "bazarr" "arr-stack" ∧
      Outcome s7 s8 st' "jackett" "download" ∧
      Outcome s8 s9 st' "transmission" "download" ∧
      Outcome s9 st' st' "argocd" "infrastructure" ∧
      (∃ evs, st'.trace = mainInit.trace ++ evs ∧ updateNames evs = allNames) ∧
      ((configWithKeys "k").ReadarrAPIKey ≠ "" → allNames = allNames) ∧
      ((configWithKeys "k").ReadarrAPIKey = "" →
        allNames = ["plex", "tautulli", "radarr", "sonarr", "lidarr", "bazarr",
          "jackett", "transmission", "argocd"]) ∧
      (mainInit.d.Services = [] →
        st'.d.Services.map Prod.fst = allNames ∧
        ∀ n ∈ allNames, ∃ r, mapGet st'.d.Services n = some r ∧ r.Name = n) :=
  collection_cycle envDown (configWithKeys "k") mainInit (Or.inr rfl)

/-- Counterexample to C10 as stated.  With the default configuration (no Readarr key) a
pass from the empty store writes nine records and none for readarr, whose probe is not
invoked.  With an ArgoCD token and an ArgoCD URL that does not parse, the pass does not
complete: `checkArgoHealth` panics on the nil request. -/
theorem collection_cycle_counterexample :
    (∃ st', collectMetricsPass envDown configDefault mainInit = some st' ∧
      updateNames st'.trace = ["plex", "tautulli", "radarr", "sonarr", "lidarr", "bazarr",
        "jackett", "transmission", "argocd"] ∧
      st'.d.Services.map Prod.fst = ["plex", "tautulli", "radarr", "sonarr", "lidarr",
        "bazarr", "jackett", "transmission", "argocd"] ∧
      mapGet st'.d.Services "readarr" = none) ∧
    collectMetricsPass envBadArgoURL configBadArgoURL mainInit = none :=
  ⟨⟨_, rfl, rfl, rfl, rfl⟩, rfl⟩

/-! ## C11: frame and totality of the probes -/

theorem checkArgoHealth_panics (env : Env) (config : Config) (st : Run)
    (ht : config.ArgoToken ≠ "")
    (hu : env.urlParses (config.ArgoURL ++ "/api/v1/applications") = false) :
    checkArgoHealth env config st = none := by
  simp [checkArgoHealth, ht, hu]

/-- The part of the frame and totality property that the code has: every probe other
than `checkArgoHealth` returns after exactly one `updateService` call under its own name
and type tag, leaving the entries under other names as they were, and so does
`checkArgoHealth` whenever it has no token or `http.NewRequest` accepts its URL. -/
theorem probes_frame_total (env : Env) (config : Config) (st : Run) :
    (∃ reqs h msg det, Wrote st (checkPlexHealth env config st) reqs "plex" "media" h msg det ∧
      ∀ k, k ≠ "plex" →
        mapGet (checkPlexHealth env config st).d.Services k = mapGet st.d.Services k) ∧
    (∃ reqs h msg det,
      Wrote st (checkTautulliHealth env config st) reqs "tautulli" "media" h msg det ∧
      ∀ k, k ≠ "tautulli" →
        mapGet (checkTautulliHealth env config st).d.Services k = mapGet st.d.Services k) ∧
    (∀ n url apiKey ty : String, ∃ reqs h msg det,
      Wrote st (checkArrHealth env n url apiKey ty st) reqs n ty h msg det ∧
      ∀ k, k ≠ n →
        mapGet (checkArrHealth env n url apiKey ty st).d.Services k = mapGet st.d.Services k) ∧
    (∃ reqs h msg det,
      Wrote st (checkBazarrHealth env config st) reqs "bazarr" "arr-stack" h msg det ∧
      ∀ k, k ≠ "bazarr" →
        mapGet (checkBazarrHealth env config st).d.Services k = mapGet st.d.Services k) ∧
    (∃ reqs h msg det,
      Wrote st (checkJackettHealth env config st) reqs "jackett" "download" h msg det ∧
      ∀ k, k ≠ "jackett" →
        mapGet (checkJackettHealth env config st).d.Services k = mapGet st.d.Services k) ∧
    (∃ reqs h msg det,
      Wrote st (checkTransmissionHealth env config st) reqs "transmission" "download"
        h msg det ∧
      ∀ k, k ≠ "transmission" →
        mapGet (checkTransmissionHealth env config st).d.Services k =
          mapGet st.d.Services k) ∧
    (config.ArgoToken = "" ∨
        env.urlParses (config.ArgoURL ++ "/api/v1/applications") = true →
      ∃ st' reqs h msg det, checkArgoHealth env config st = some st' ∧
        Wrote st st' reqs "argocd" "infrastructure" h msg det ∧
        ∀ k, k ≠ "argocd" → mapGet st'.d.Services k = mapGet st.d.Services k) := by
  refine ⟨?_, ?_, ?_, ?_, ?_, ?_, ?_⟩
  · obtain ⟨q, a, b, c, w⟩ := checkPlexHealth_wrote env config st
    exact ⟨q, a, b, c, w, (wrote_frame _ _ _ _ _ _ _ _ w).1⟩
  · obtain ⟨q, a, b, c, w⟩ := checkTautulliHealth_wrote env config st
    exact ⟨q, a, b, c, w, (wrote_frame _ _ _ _ _ _ _ _ w).1⟩
  · intro n url apiKey ty
    obtain ⟨q, a, b, c, w⟩ := checkArrHealth_wrote env n url apiKey ty st
    exact ⟨q, a, b, c, w, (wrote_frame _ _ _ _ _ _ _ _ w).1⟩
  · obtain ⟨q, a, b, c, w⟩ := checkBazarrHealth_wrote env config st
    exact ⟨q, a, b, c, w, (wrote_frame _ _ _ _ _ _ _ _ w).1⟩
  · obtain ⟨q, a, b, c, w⟩ := checkJackettHealth_wrote env config st
    exact ⟨q, a, b, c, w, (wrote_frame _ _ _ _ _ _ _ _ w).1⟩
  · obtain ⟨q, a, b, c, w⟩ := checkTransmissionHealth_wrote env config st
    exact ⟨q, a, b, c, w, (wrote_frame _ _ _ _ _ _ _ _ w).1⟩
  · intro hargo
    obtain ⟨st', hst'⟩ := checkArgoHealth_isSome env config st hargo
    obtain ⟨q, a, b, c, w⟩ := checkArgoHealth_wrote env config st st' hst'
    exact ⟨st', q, a, b, c, hst', w, (wrote_frame _ _ _ _ _ _ _ _ w).1⟩

/-- C11, at the failing input.  With an ArgoCD token set and the ArgoCD URL `http://[::1`,
which `http.NewRequest` rejects, `checkArgoHealth` run on the empty store does not return:
the discarded error leaves the request nil and `req.Header.Add` panics.  No
`updateService` call is made, so there is no state in which the probe has written its one
record. -/
theorem argo_probe_not_total :
    configBadArgoURL.ArgoToken ≠ "" ∧
    envBadArgoURL.urlParses (configBadArgoURL.ArgoURL ++ "/api/v1/applications") = false ∧
    checkArgoHealth envBadArgoURL configBadArgoURL mainInit = none ∧
    ¬ ∃ st' reqs healthy message details,
      checkArgoHealth envBadArgoURL configBadArgoURL mainInit = some st' ∧
      Wrote mainInit st' reqs "argocd" "infrastructure" healthy message details := by
  have hnone : checkArgoHealth envBadArgoURL configBadArgoURL mainInit = none := rfl
  refine ⟨by decide, rfl, hnone, ?_⟩
  rintro ⟨st', -, -, -, -, hsome, -⟩
  rw [hnone] at hsome
  cases hsome

end Rinzler
